import Mathlib

/-!
# Star Citizen patch-notes bot (`bot.js`): change detection, extraction, chunking, fan-out

A shallow embedding of `src/bot.js`.

* JavaScript strings are sequences of UTF-16 code units (`JSString`).
* Module-level variables (`serverConfigs`, `latestThreadUrl`, `openai`) and the
  configuration file are the fields of `BotState`, passed explicitly.
* Every awaited call on a collaborator (puppeteer, OpenAI, discord.js channels, the file
  system) takes its outcome from a `World`; `try / catch / finally` is modelled on `Outcome`.
* What a run does to the outside is recorded as a list of `Event`s.
* The calls on the interaction object itself (`deferReply`, `reply`, `editReply`) are the
  platform's: the command handlers are embedded from the acknowledged interaction on, and a reply
  is recorded with its text.
-/

set_option autoImplicit false

namespace PatchNotesBot

/-! ## Strings -/

/-- A UTF-16 code unit. -/
abbrev CodeUnit := Nat

/-- A JavaScript string: its code units in order. -/
abbrev JSString := List CodeUnit

/-- Code units of a literal of the source (the literals used are ASCII, one unit per character). -/
def lit (s : String) : JSString := s.toList.map Char.toNat

/-- JavaScript truthiness of a string-or-null value: `null` and the empty string are falsy. -/
def truthy : Option JSString → Bool
  | none => false
  | some s => !s.isEmpty

/-- ECMAScript `LineTerminator`: LF, CR, LS, PS. -/
def isLineTerminator (c : CodeUnit) : Bool :=
  c == 0x000A || c == 0x000D || c == 0x2028 || c == 0x2029

/-- ECMAScript `WhiteSpace` or `LineTerminator`, the code units `String.prototype.trim` strips. -/
def isTrimSpace (c : CodeUnit) : Bool :=
  c == 0x0009 || c == 0x000B || c == 0x000C || c == 0x0020 || c == 0x00A0 || c == 0xFEFF ||
  c == 0x1680 || (0x2000 ≤ c && c ≤ 0x200A) || c == 0x202F || c == 0x205F || c == 0x3000 ||
  isLineTerminator c

/-- `String.prototype.trim`. -/
def trim (s : JSString) : JSString :=
  ((s.dropWhile isTrimSpace).reverse.dropWhile isTrimSpace).reverse

/-! ## The chunking regular expression `/.{1,2000}/gs` -/

/-- The atom `.` of a regular expression without the `u` flag: one code unit; with the `s`
(dotAll) flag any code unit, without it any code unit that is not a line terminator. -/
def dotMatches (dotAll : Bool) (c : CodeUnit) : Bool :=
  dotAll || !isLineTerminator c

/-- The greedy quantified atom `.{1,hi}` tried at the start of `s`: the number of code units it
consumes (as many as it can, at most `hi`), or `none` when it cannot consume one. -/
def matchDotRange (dotAll : Bool) (hi : Nat) (s : JSString) : Option Nat :=
  let k := ((s.take hi).takeWhile (dotMatches dotAll)).length
  if 1 ≤ k then some k else none

/-- The loop of `RegExp.prototype[Symbol.match]` for a global `/.{1,hi}/`: starting at
`lastIndex` (the start of `s`), take the match found there, or move one code unit on when there
is none at this position; stop at the end of the input. Each round consumes at least one code
unit, so `fuel = s.length` rounds always suffice. -/
def matchLoop (dotAll : Bool) (hi : Nat) : Nat → JSString → List JSString
  | 0, _ => []
  | _ + 1, [] => []
  | fuel + 1, c :: cs =>
    match matchDotRange dotAll hi (c :: cs) with
    | some k => (c :: cs).take k :: matchLoop dotAll hi fuel ((c :: cs).drop k)
    | none => matchLoop dotAll hi fuel cs

/-- The method call `s.match(/.{1,hi}/g)` (with the `s` flag when `dotAll`): the array of all
matches, or `null` when there is none. -/
def stringMatchAll (dotAll : Bool) (hi : Nat) (s : JSString) : Option (List JSString) :=
  match matchLoop dotAll hi s.length s with
  | [] => none
  | m :: ms => some (m :: ms)

/-- The chunking expression with the limit as a parameter: `s.match(/.{1,maxLen}/gs) || []`. -/
def chunk (maxLen : Nat) (s : JSString) : List JSString :=
  (stringMatchAll true maxLen s).getD []

/-- The message-length limit written in the regular expression of both call sites. -/
def MAX_CHUNK_LEN : Nat := 2000

/-- The expression of `checkForUpdates` (line 200) and of the `/patchnotes` handler (line 300):
`content.match(/.{1,2000}/gs) || []`. -/
def contentParts (content : JSString) : List JSString :=
  chunk MAX_CHUNK_LEN content

/-- Reference slicing in the words of the specification: `ceil(n / maxLen)` chunks, the `i`-th
being the slice of `s` from index `maxLen * i` to `min (maxLen * (i + 1)) n`. -/
def sliceChunks (maxLen : Nat) (s : JSString) : List JSString :=
  (List.range ((s.length + maxLen - 1) / maxLen)).map
    (fun i => (s.take (min (maxLen * (i + 1)) s.length)).drop (maxLen * i))

/-! ## Outcomes of calls, state, world -/

/-- How a call ends: it returns a value, or it throws (for an awaited call: the promise
rejects). -/
inductive Outcome (α : Type) where
  | returned : α → Outcome α
  | threw : Outcome α
deriving DecidableEq

/-- The handler `catch (error) { ...; return null; }` of a `try` block. -/
def Outcome.catchReturnNull {α : Type} : Outcome (Option α) → Outcome (Option α)
  | .returned v => .returned v
  | .threw => .returned none

/-- The block `finally { if (browser) { await browser.close(); } }`: it runs on
every exit of the `try` statement; `browser` is set exactly when `puppeteer.launch` resolved, and
a rejected `browser.close()` replaces the pending result by that rejection. -/
def Outcome.finallyClose {α : Type} (launched closeOk : Bool) (r : Outcome α) : Outcome α :=
  if launched && !closeOk then .threw else r

/-- A guild (server) id, the property key of `serverConfigs`. -/
abbrev GuildId := JSString

/-- One value of `serverConfigs`, as `/setup` writes it (lines 233-237). -/
structure ServerConfig where
  channelId : JSString
  pingRoleId : Option JSString
  openAiKey : JSString
deriving DecidableEq

/-- The object `serverConfigs`: its entries in property order, which `Object.entries` follows.
Guild ids are snowflakes, not array indices, so property order is insertion order. A JavaScript
object holds each key once: `Registry.WF`. -/
abbrev Registry := List (GuildId × ServerConfig)

/-- No two entries share a key (what every JavaScript object satisfies). -/
def Registry.WF (reg : Registry) : Prop := (reg.map Prod.fst).Nodup

/-- The property read `serverConfigs[id]` (`undefined` is `none`). -/
def Registry.get (reg : Registry) (id : GuildId) : Option ServerConfig :=
  reg.lookup id

/-- The assignment `serverConfigs[id] = cfg`: an existing property keeps its place and gets the
new value, a new property is added last. -/
def Registry.set (reg : Registry) (id : GuildId) (cfg : ServerConfig) : Registry :=
  if reg.any (fun e => e.1 == id) then reg.map (fun e => if e.1 == id then (id, cfg) else e)
  else reg ++ [(id, cfg)]

/-- The module-level variables of `bot.js` and the configuration file. -/
structure BotState where
  /-- The variable `serverConfigs`. -/
  serverConfigs : Registry
  /-- The variable `latestThreadUrl`, initially `null`. -/
  latestThreadUrl : Option JSString
  /-- The variable `openai`: `null`, or the client, identified by the key it was built with. -/
  openai : Option JSString
  /-- The registry last written to `CONFIG_FILE`, `none` before the first write. -/
  configFile : Option Registry
deriving DecidableEq

/-- The value `getLatestPatchNotesContent` returns on success: `{ url, content }`. -/
structure Document where
  url : Option JSString
  content : JSString
deriving DecidableEq

/-- One puppeteer session on the forum page, as `getLatestThreadUrl` drives it: whether each
awaited call resolves, and what `page.$eval` of the `href` attribute of the first
`a.thread-subject` gives (it throws when no element matches, the attribute may be `null`). -/
structure ForumSession where
  launch : Bool
  newPage : Bool
  goto : Bool
  href : Outcome (Option JSString)
  close : Bool

/-- One puppeteer session on a thread page, as `getLatestPatchNotesContent` drives it: whether
each awaited call resolves, and for `page.content()` read by cheerio the text of every
`div.content-main` element it holds. -/
structure PageSession where
  launch : Bool
  newPage : Bool
  goto : Bool
  waitForSelector : Bool
  content : Outcome (List JSString)
  close : Bool

/-- The collaborators' answers during one run of a handler or of a polling cycle. -/
structure World where
  /-- The session opened by `getLatestThreadUrl`. -/
  forum : ForumSession
  /-- The session opened by `getLatestPatchNotesContent(url)`. -/
  page : Option JSString → PageSession
  /-- The call `openai.chat.completions.create` of the client built with the given key on the
  given prompt, followed by the read `response.choices[0].message.content`: the text, `null`
  (`none`), or a rejection or a response without that path (`threw`). -/
  generate : JSString → JSString → Outcome (Option JSString)
  /-- Whether `client.channels.fetch(channelId)`, called for the given guild, resolves to a
  channel. -/
  fetchChannel : GuildId → JSString → Bool
  /-- Whether the `n`-th `channel.send` made for the given guild in this run resolves. -/
  send : GuildId → Nat → Bool
  /-- Whether `fs.writeFileSync(CONFIG_FILE, ...)` returns (it throws otherwise). -/
  writeFile : Bool

/-- What a run does to the outside and to the module state, in order. -/
inductive Event where
  /-- The call of `getLatestThreadUrl()` and how it ended (line 177). -/
  | detect (result : Outcome (Option JSString))
  /-- The assignment `latestThreadUrl = latestUrl` (line 181). -/
  | setLatest (url : Option JSString)
  /-- The call of `getLatestPatchNotesContent(url)` and how it ended (lines 183, 281). -/
  | extract (url : Option JSString) (result : Outcome (Option Document))
  /-- The call `client.channels.fetch(channelId)` made for a guild and whether it gave a channel. -/
  | fetch (guild : GuildId) (channelId : JSString) (resolved : Bool)
  /-- The call `channel.send(text)` made for a guild and whether it resolved. -/
  | send (guild : GuildId) (channelId : JSString) (text : JSString) (ok : Bool)
  /-- The call of `saveConfig()`: the registry it serialises and whether the write returned. -/
  | saveConfig (content : Registry) (ok : Bool)
  /-- The reply given to the interaction (`interaction.reply` or `interaction.editReply`). -/
  | reply (text : JSString)
deriving DecidableEq

/-- The result of running a handler or a cycle: the state left behind, what was done, and whether
the function returned or an exception left it. -/
structure Run where
  state : BotState
  trace : List Event
  result : Outcome Unit

/-- Whether an event is a call of the extractor. -/
def Event.isExtract : Event → Bool
  | .extract _ _ => true
  | _ => false

/-- Whether an event is a call of `channel.send`. -/
def Event.isSend : Event → Bool
  | .send _ _ _ _ => true
  | _ => false

/-- The extraction calls of a trace. -/
def extractions (t : List Event) : List Event := t.filter Event.isExtract

/-- The send calls of a trace. -/
def sends (t : List Event) : List Event := t.filter Event.isSend

/-- The channels resolved in a trace, in order: guild, channel id, and whether it resolved. -/
def fetches : List Event → List (GuildId × JSString × Bool)
  | [] => []
  | .fetch g c ok :: t => (g, c, ok) :: fetches t
  | _ :: t => fetches t

/-- The texts passed to `channel.send` for guild `g` in a trace, in order. -/
def sentTo (g : GuildId) : List Event → List JSString
  | [] => []
  | .send g' _ text _ :: t => if g' = g then text :: sentTo g t else sentTo g t
  | _ :: t => sentTo g t

/-! ## Change detector: `getLatestThreadUrl` (lines 57-90) -/

/-- The origin prepended to the thread link (line 77). -/
def SITE : JSString := lit "https://robertsspaceindustries.com"

/-- The function `getLatestThreadUrl`, run on one forum session. -/
def getLatestThreadUrl (f : ForumSession) : Outcome (Option JSString) :=
  let body : Outcome (Option JSString) :=
    if !f.launch then .threw
    else if !f.newPage then .threw
    else if !f.goto then .threw
    else
      match f.href with
      | .threw => .threw
      | .returned latestPostLink =>
        if !truthy latestPostLink then .returned none
        else .returned (some (SITE ++ latestPostLink.getD []))
  (body.catchReturnNull).finallyClose f.launch f.close

/-! ## Content extractor (lines 93-167) -/

/-- The fixed instruction that precedes the scraped text in the prompt (line 100). -/
def PROMPT_PREFIX : JSString :=
  lit "You are a helpful assistant that formats patch notes for Star Citizen. Don" ++ [0x27] ++
  lit "t include a release date/time! Besides this, YOU MUST INCLUDE EVERYTHING FROM THE TITLE AT THE TOP TO THE END OF THE TECHNICAL CATEGORY! Make sure to show any special requests or any testing/feedback focus. Include all Known issues, Features & Gameplay, Bug Fixes, and Technical. Use markdown for formatting:\n\n"

/-- The function `processPatchNotesWithChatGPT`: `null` without a client; otherwise the trimmed
text of the first choice; a rejected call, a response without that text, and `null.trim()` all
throw inside the `try` block and end in its `catch`. -/
def processPatchNotesWithChatGPT (openai : Option JSString)
    (generate : JSString → JSString → Outcome (Option JSString)) (content : JSString) :
    Outcome (Option JSString) :=
  match openai with
  | none => .returned none
  | some key =>
    let body : Outcome (Option JSString) :=
      match generate key (PROMPT_PREFIX ++ content) with
      | .threw => .threw
      | .returned none => .threw
      | .returned (some text) => .returned (some (trim text))
    body.catchReturnNull

/-- The function `getLatestPatchNotesContent`, run with the current client on the session the
world opens for `url`. -/
def getLatestPatchNotesContent (w : World) (openai : Option JSString) (url : Option JSString) :
    Outcome (Option Document) :=
  let p := w.page url
  let body : Outcome (Option Document) :=
    if !p.launch then .threw
    else if !p.newPage then .threw
    else if !p.goto then .threw
    else if !p.waitForSelector then .threw
    else
      match p.content with
      | .threw => .threw
      | .returned contentMain =>
        if contentMain.length == 0 then .returned none
        else
          let rawContent := trim contentMain.flatten
          if !truthy (some rawContent) then .returned none
          else
            match processPatchNotesWithChatGPT openai w.generate rawContent with
            | .threw => .threw
            | .returned formattedContent =>
              if !truthy formattedContent then .returned none
              else .returned (some ⟨url, formattedContent.getD []⟩)
  (body.catchReturnNull).finallyClose p.launch p.close

/-! ## Dispatcher: `checkForUpdates` (lines 170-212) -/

/-- The template text of a nullable url (`null` prints as the word). -/
def urlText : Option JSString → JSString
  | none => lit "null"
  | some u => u

/-- The role mention of lines 197 and 296: empty unless `pingRoleId` is truthy. -/
def roleMention (pingRoleId : Option JSString) : JSString :=
  if truthy pingRoleId then lit "<@&" ++ pingRoleId.getD [] ++ lit ">" else []

/-- The header message of a polling cycle (line 198). -/
def newNotesHeader (cfg : ServerConfig) (url : Option JSString) : JSString :=
  roleMention cfg.pingRoleId ++ lit " **New Star Citizen Patch Notes:**\n" ++ urlText url

/-- The header message of the `/patchnotes` command (lines 297-298). -/
def latestNotesHeader (cfg : ServerConfig) (url : Option JSString) : JSString :=
  roleMention cfg.pingRoleId ++ lit " **Latest Star Citizen Patch Notes:**\n" ++ urlText url

/-- Awaited sends in sequence for one guild, numbered from `n`: each is attempted only when
all before it resolved; the flag tells whether all resolved (otherwise the first rejection is
thrown to the enclosing `try`). -/
def sendAll (w : World) (guild : GuildId) (channelId : JSString) :
    Nat → List JSString → List Event × Bool
  | _, [] => ([], true)
  | n, text :: rest =>
    if w.send guild n then
      (Event.send guild channelId text true :: (sendAll w guild channelId (n + 1) rest).1,
        (sendAll w guild channelId (n + 1) rest).2)
    else ([Event.send guild channelId text false], false)

/-- The body of the loop over `Object.entries(serverConfigs)` (lines 194-208) for one entry: a
rejected fetch is turned into `null` and skips the entry, a rejected send ends this entry in the
`catch` of line 206; neither leaves the loop. -/
def deliverTo (w : World) (doc : Document) (entry : GuildId × ServerConfig) : List Event :=
  if w.fetchChannel entry.1 entry.2.channelId then
    Event.fetch entry.1 entry.2.channelId true ::
      (sendAll w entry.1 entry.2.channelId 0
        (newNotesHeader entry.2 doc.url :: contentParts doc.content)).1
  else [Event.fetch entry.1 entry.2.channelId false]

/-- The function `checkForUpdates`: one polling cycle. -/
def checkForUpdates (w : World) (st : BotState) : Run :=
  if st.serverConfigs.length == 0 then ⟨st, [], .returned ()⟩
  else
    match getLatestThreadUrl w.forum with
    | .threw => ⟨st, [.detect .threw], .threw⟩
    | .returned latestUrl =>
      if truthy latestUrl && decide (latestUrl ≠ st.latestThreadUrl) then
        let st1 : BotState := { st with latestThreadUrl := latestUrl }
        let pre : List Event := [.detect (.returned latestUrl), .setLatest latestUrl]
        match getLatestPatchNotesContent w st1.openai latestUrl with
        | .threw => ⟨st1, pre ++ [.extract latestUrl .threw], .threw⟩
        | .returned none => ⟨st1, pre ++ [.extract latestUrl (.returned none)], .returned ()⟩
        | .returned (some doc) =>
          if !truthy (some doc.content) then
            ⟨st1, pre ++ [.extract latestUrl (.returned (some doc))], .returned ()⟩
          else
            ⟨st1, pre ++ [.extract latestUrl (.returned (some doc))] ++
              st1.serverConfigs.flatMap (deliverTo w doc), .returned ()⟩
      else ⟨st, [.detect (.returned latestUrl)], .returned ()⟩

/-- Consecutive polling cycles, each starting from the state the one before left, one world
per cycle. -/
def runCycles : List World → BotState → List Run
  | [], _ => []
  | w :: ws, st => checkForUpdates w st :: runCycles ws (checkForUpdates w st).state

/-! ## Command handlers (lines 215-319)

Both handlers are embedded from the point where the interaction has been acknowledged
(`deferReply` resolved, for `/patchnotes` after the configuration lookup); the replies they give
are recorded as `Event.reply`. -/

/-- The options of a `/setup` interaction and the guild it comes from. -/
structure SetupOptions where
  guildId : GuildId
  /-- The id of the option `channel`. -/
  channel : JSString
  /-- The id of the option `pingrole`, `none` when no role was given. -/
  pingRole : Option JSString
  /-- The option `openai_key`, `none` when `getString` gives `null`. -/
  openAiKey : Option JSString

/-- Reply of line 227. -/
def KEY_REQUIRED : JSString :=
  lit "An OpenAI API key is required to set up the bot. Please provide one."

/-- Reply of line 262. -/
def SETUP_ERROR : JSString := lit "An error occurred while processing your request."

/-- Reply of lines 246-250. -/
def setupDone (o : SetupOptions) : JSString :=
  lit "Patch notes will now be posted in <#" ++ o.channel ++ lit ">" ++
    (match o.pingRole with
     | some role => lit " and will ping <@&" ++ role ++ lit ">"
     | none => []) ++ lit "."

/-- The function `saveConfig` (lines 36-39): it serialises the whole of `serverConfigs` into
`CONFIG_FILE`; a failed write throws and leaves the file as it was. -/
def saveConfig (w : World) (st : BotState) : Run :=
  if w.writeFile then
    ⟨{ st with configFile := some st.serverConfigs }, [.saveConfig st.serverConfigs true],
      .returned ()⟩
  else ⟨st, [.saveConfig st.serverConfigs false], .threw⟩

/-- The `/setup` branch of the handler (lines 222-266): the credential test, the assignment
into `serverConfigs`, `saveConfig`, the first client, the reply; an exception of `saveConfig`
ends in the `catch` of line 257. -/
def setupHandler (w : World) (st : BotState) (o : SetupOptions) : Run :=
  if !truthy o.openAiKey then ⟨st, [.reply KEY_REQUIRED], .returned ()⟩
  else
    let cfg : ServerConfig := ⟨o.channel, o.pingRole, o.openAiKey.getD []⟩
    let st1 : BotState := { st with serverConfigs := st.serverConfigs.set o.guildId cfg }
    let saved := saveConfig w st1
    match saved.result with
    | .threw => ⟨saved.state, saved.trace ++ [.reply SETUP_ERROR], .returned ()⟩
    | .returned _ =>
      let st3 : BotState :=
        { saved.state with
          openai := if saved.state.openai.isNone then some (o.openAiKey.getD [])
            else saved.state.openai }
      ⟨st3, saved.trace ++ [.reply (setupDone o)], .returned ()⟩

/-- Reply of line 272. -/
def NOT_CONFIGURED : JSString :=
  lit "This server is not configured. Please run " ++ [0x60] ++ lit "/setup" ++ [0x60] ++
    lit " first."

/-- Reply of line 292. -/
def CHANNEL_UNDETERMINED : JSString :=
  lit "An error occurred: the channel could not be determined."

/-- Reply of line 305. -/
def POSTED : JSString := lit "Patch notes have been posted."

/-- Reply of line 308. -/
def COULD_NOT_FETCH : JSString :=
  lit "Could not fetch the latest patch notes. Please try again later."

/-- Reply of line 313. -/
def UNEXPECTED_ERROR : JSString :=
  lit "An unexpected error occurred while processing your request."

/-- The `/patchnotes` branch of the handler (lines 268-317), invoked from guild `guildId`. -/
def patchnotesHandler (w : World) (st : BotState) (guildId : GuildId) : Run :=
  match st.serverConfigs.get guildId with
  | none => ⟨st, [.reply NOT_CONFIGURED], .returned ()⟩
  | some serverConfig =>
    match getLatestPatchNotesContent w st.openai st.latestThreadUrl with
    | .threw => ⟨st, [.extract st.latestThreadUrl .threw, .reply UNEXPECTED_ERROR], .returned ()⟩
    | .returned none =>
      ⟨st, [.extract st.latestThreadUrl (.returned none), .reply COULD_NOT_FETCH], .returned ()⟩
    | .returned (some doc) =>
      let pre : List Event := [.extract st.latestThreadUrl (.returned (some doc))]
      if !w.fetchChannel guildId serverConfig.channelId then
        ⟨st, pre ++ [.fetch guildId serverConfig.channelId false, .reply CHANNEL_UNDETERMINED],
          .returned ()⟩
      else
        let out := sendAll w guildId serverConfig.channelId 0
          (latestNotesHeader serverConfig doc.url :: contentParts doc.content)
        ⟨st, pre ++ [.fetch guildId serverConfig.channelId true] ++ out.1 ++
          [.reply (if out.2 then POSTED else UNEXPECTED_ERROR)], .returned ()⟩

/-! ## Sample sessions, worlds and states -/

/-- A forum session in which every call resolves and the first thread links to `href`. -/
def forumShowing (href : JSString) : ForumSession :=
  ⟨true, true, true, .returned (some href), true⟩

/-- A thread-page session in which every call resolves and one content node holds `text`. -/
def pageShowing (text : JSString) : PageSession :=
  ⟨true, true, true, true, .returned [text], true⟩

/-- A thread-page session whose navigation is rejected (as for an absent url, or a timeout). -/
def pageUnreachable : PageSession :=
  ⟨true, true, false, false, .threw, true⟩

/-- A thread-page session in which every call resolves but `browser.close()` is rejected. -/
def pageCloseFails (text : JSString) : PageSession :=
  ⟨true, true, true, true, .returned [text], false⟩

/-- A world in which the forum's first thread is `href`, every thread page holds `notes`, the
generation answers `NOTES` for every prompt, and every channel resolves and accepts every
message. -/
def calmWorld (href : JSString) : World where
  forum := forumShowing href
  page := fun _ => pageShowing (lit "notes")
  generate := fun _ _ => .returned (some (lit " NOTES "))
  fetchChannel := fun _ _ => true
  send := fun _ _ => true
  writeFile := true

/-- The state of a freshly started bot that nobody has configured. -/
def freshState : BotState := ⟨[], none, none, none⟩

/-- One configured guild `g1` posting to channel `c1` with role `r1`. -/
def guildOne : GuildId × ServerConfig := (lit "g1", ⟨lit "c1", some (lit "r1"), lit "k"⟩)

/-- A second guild, without a role. -/
def guildTwo : GuildId × ServerConfig := (lit "g2", ⟨lit "c2", none, lit "k"⟩)

/-- A third guild. -/
def guildThree : GuildId × ServerConfig := (lit "g3", ⟨lit "c3", some (lit "r3"), lit "k"⟩)

/-- One configured guild, a client, no url held yet. -/
def configuredState : BotState := ⟨[guildOne], none, some (lit "k"), none⟩

/-- One configured guild but no generation client: every extraction gives nothing. -/
def clientlessState : BotState := ⟨[guildOne], none, none, none⟩

/-- Three configured guilds, a client, no url held yet. -/
def threeGuildState : BotState := ⟨[guildOne, guildTwo, guildThree], none, some (lit "k"), none⟩

/-- As `calmWorld`, but the channel of guild `g2` cannot be resolved and every send to the
channel of guild `g1` is rejected. -/
def roughWorld (href : JSString) : World where
  forum := forumShowing href
  page := fun _ => pageShowing (lit "notes")
  generate := fun _ _ => .returned (some (lit " NOTES "))
  fetchChannel := fun g _ => decide (g ≠ lit "g2")
  send := fun g _ => decide (g ≠ lit "g1")
  writeFile := true

/-- One configured guild, a client, and thread `/a` held as the latest url. -/
def holdingState : BotState := ⟨[guildOne], some (SITE ++ lit "/a"), some (lit "k"), none⟩

/-- As `calmWorld`, but the browser cannot navigate to an absent url. -/
def absentUrlWorld : World where
  forum := forumShowing (lit "/a")
  page := fun url => if url.isSome then pageShowing (lit "notes") else pageUnreachable
  generate := fun _ _ => .returned (some (lit " NOTES "))
  fetchChannel := fun _ _ => true
  send := fun _ _ => true
  writeFile := true

/-- As `calmWorld`, but no thread page can be reached (a navigation timeout). -/
def timeoutWorld : World where
  forum := forumShowing (lit "/a")
  page := fun _ => pageUnreachable
  generate := fun _ _ => .returned (some (lit " NOTES "))
  fetchChannel := fun _ _ => true
  send := fun _ _ => true
  writeFile := true

/-- As `calmWorld`, but `browser.close()` is rejected at the end of every thread-page session. -/
def closeFailsWorld : World where
  forum := forumShowing (lit "/a")
  page := fun _ => pageCloseFails (lit "notes")
  generate := fun _ _ => .returned (some (lit " NOTES "))
  fetchChannel := fun _ _ => true
  send := fun _ _ => true
  writeFile := true

/-- A `/setup` interaction from guild `g2` naming channel `c9`, no role, and a key. -/
def setupFromTwo : SetupOptions := ⟨lit "g2", lit "c9", none, some (lit "k2")⟩

/-! ## Chunker: the regular expression against the reference slicing -/

/-- With the `s` flag the quantified atom consumes `min hi s.length` code units. -/
theorem matchDotRange_dotAll (hi : Nat) (s : JSString) :
    matchDotRange true hi s = if 1 ≤ min hi s.length then some (min hi s.length) else none := by
  have h : (s.take hi).takeWhile (dotMatches true) = s.take hi := by
    rw [List.takeWhile_eq_self_iff]
    intro x _
    simp [dotMatches]
  simp only [matchDotRange, h, List.length_take]

/-- One round of the match loop with the `s` flag: the next `hi` code units are the match. -/
theorem matchLoop_cons (hi fuel : Nat) (hhi : 1 ≤ hi) (c : CodeUnit) (cs : JSString) :
    matchLoop true hi (fuel + 1) (c :: cs)
      = (c :: cs).take hi :: matchLoop true hi fuel ((c :: cs).drop hi) := by
  have hk : matchDotRange true hi (c :: cs) = some (min hi (cs.length + 1)) := by
    rw [matchDotRange_dotAll]
    have h1 : 1 ≤ min hi (c :: cs).length := by simp; omega
    rw [if_pos h1]
    simp
  rw [matchLoop, hk]
  simp only
  rcases Nat.le_total hi (cs.length + 1) with h | h
  · rw [Nat.min_eq_left h]
  · rw [Nat.min_eq_right h]
    have h1 : (c :: cs).take (cs.length + 1) = (c :: cs).take hi := by
      rw [List.take_of_length_le (by simp), List.take_of_length_le (by simpa using h)]
    have h2 : (c :: cs).drop (cs.length + 1) = (c :: cs).drop hi := by
      rw [List.drop_of_length_le (by simp), List.drop_of_length_le (by simpa using h)]
    rw [h1, h2]

/-- With enough fuel the matches, concatenated, are the input. -/
theorem matchLoop_join (hi : Nat) (hhi : 1 ≤ hi) :
    ∀ (fuel : Nat) (s : JSString), s.length ≤ fuel → (matchLoop true hi fuel s).flatten = s := by
  intro fuel
  induction fuel with
  | zero =>
    intro s hs
    have : s = [] := List.length_eq_zero.mp (Nat.le_zero.mp hs)
    subst this
    simp [matchLoop]
  | succ n ih =>
    intro s hs
    cases s with
    | nil => simp [matchLoop]
    | cons c cs =>
      rw [matchLoop_cons hi n hhi, List.flatten_cons, ih _ (by simp at hs ⊢; omega), List.take_append_drop]

/-- The reference slicing of the empty string has no slice. -/
theorem sliceChunks_nil (hi : Nat) (hhi : 1 ≤ hi) : sliceChunks hi [] = [] := by
  have h : ([] : JSString).length + hi - 1 < hi := by simp; omega
  simp only [sliceChunks, Nat.div_eq_of_lt h, List.range_zero, List.map_nil]

/-- The reference slicing peels off the first `hi` code units and slices the rest. -/
theorem sliceChunks_cons (hi : Nat) (hhi : 1 ≤ hi) (c : CodeUnit) (cs : JSString) :
    sliceChunks hi (c :: cs) = (c :: cs).take hi :: sliceChunks hi ((c :: cs).drop hi) := by
  have hlen : ((c :: cs).length + hi - 1) / hi
      = (((c :: cs).drop hi).length + hi - 1) / hi + 1 := by
    have e1 : (c :: cs).length + hi - 1 = cs.length + hi := by simp
    rw [e1, Nat.add_div_right _ (by omega), List.length_drop]
    congr 1
    rcases Nat.lt_or_ge (cs.length + 1) hi with h | h
    · have a : (c :: cs).length - hi + hi - 1 < hi := by simp; omega
      have b : cs.length < hi := by omega
      rw [Nat.div_eq_of_lt a, Nat.div_eq_of_lt b]
    · have a : (c :: cs).length - hi + hi - 1 = cs.length := by simp; omega
      rw [a]
  unfold sliceChunks
  rw [hlen, List.range_succ_eq_map, List.map_cons, List.map_map]
  congr 1
  · simp only [Nat.mul_one, Nat.mul_zero, List.drop_zero, zero_add]
    rcases Nat.le_total hi (c :: cs).length with h | h
    · rw [Nat.min_eq_left h]
    · rw [Nat.min_eq_right h, List.take_of_length_le (le_refl _), List.take_of_length_le h]
  · apply List.map_congr_left
    intro i hi'
    simp only [Function.comp, List.length_drop]
    rw [List.take_drop, List.drop_drop]
    have e2 : hi * (i + 1) = hi * i + hi := Nat.mul_succ hi i
    have e3 : hi * (i + 1 + 1) = hi * i + hi + hi := by rw [Nat.mul_succ, e2]
    rw [e2, e3]
    rcases Nat.le_total hi (c :: cs).length with h | h
    · have e4 : min (hi * i + hi + hi) (c :: cs).length
          = hi + min (hi * i + hi) ((c :: cs).length - hi) := by omega
      rw [e4, Nat.add_comm hi (hi * i)]
    · rw [List.drop_of_length_le, List.drop_of_length_le]
      · rw [List.length_take]; omega
      · rw [List.length_take]; omega

/-- The step `|| []` only replaces `null` by the empty array. -/
theorem chunk_eq_matchLoop (hi : Nat) (s : JSString) :
    chunk hi s = matchLoop true hi s.length s := by
  unfold chunk stringMatchAll
  cases matchLoop true hi s.length s <;> rfl

/-- With enough fuel the match loop computes the reference slicing. -/
theorem matchLoop_eq_sliceChunks (hi : Nat) (hhi : 1 ≤ hi) :
    ∀ (fuel : Nat) (s : JSString), s.length ≤ fuel → matchLoop true hi fuel s = sliceChunks hi s := by
  intro fuel
  induction fuel with
  | zero =>
    intro s hs
    have : s = [] := List.length_eq_zero.mp (Nat.le_zero.mp hs)
    subst this
    rw [sliceChunks_nil hi hhi, matchLoop]
  | succ n ih =>
    intro s hs
    cases s with
    | nil => rw [sliceChunks_nil hi hhi, matchLoop]
    | cons c cs =>
      rw [matchLoop_cons hi n hhi, sliceChunks_cons hi hhi, ih _ (by simp at hs ⊢; omega)]

/-- Refinement: the regular expression computes the reference slicing. -/
theorem chunk_eq_sliceChunks (hi : Nat) (hhi : 1 ≤ hi) (s : JSString) :
    chunk hi s = sliceChunks hi s := by
  rw [chunk_eq_matchLoop, matchLoop_eq_sliceChunks hi hhi _ _ (le_refl _)]

/-- Round trip of the chunker for every limit of at least one. -/
theorem chunk_flatten (hi : Nat) (hhi : 1 ≤ hi) (s : JSString) : (chunk hi s).flatten = s := by
  rw [chunk_eq_matchLoop, matchLoop_join hi hhi _ _ (le_refl _)]

/-- The number of slices is `ceil(n / hi)`. -/
theorem sliceChunks_length (hi : Nat) (s : JSString) :
    (sliceChunks hi s).length = (s.length + hi - 1) / hi := by
  simp [sliceChunks]

/-- The `i`-th slice. -/
theorem sliceChunks_getElem (hi : Nat) (s : JSString) (i : Nat) (h : i < (sliceChunks hi s).length) :
    (sliceChunks hi s)[i] = (s.take (min (hi * (i + 1)) s.length)).drop (hi * i) := by
  simp [sliceChunks]

/-- Every slice but the last is full. -/
theorem slice_length_full (hi : Nat) (hhi : 1 ≤ hi) (s : JSString) (i : Nat)
    (h : i + 1 < (s.length + hi - 1) / hi) :
    ((s.take (min (hi * (i + 1)) s.length)).drop (hi * i)).length = hi := by
  have h1 : (i + 2) * hi ≤ s.length + hi - 1 := (Nat.le_div_iff_mul_le (by omega)).mp h
  have e2 : hi * (i + 1) = hi * i + hi := Nat.mul_succ hi i
  have e3 : (i + 2) * hi = hi * i + hi + hi := by rw [Nat.mul_comm, Nat.mul_succ, e2]
  rw [List.length_drop, List.length_take, e2]
  omega

/-- Every slice, the last included, holds between one and `hi` code units. -/
theorem slice_length_last (hi : Nat) (hhi : 1 ≤ hi) (s : JSString) (i : Nat)
    (h : i < (s.length + hi - 1) / hi) :
    1 ≤ ((s.take (min (hi * (i + 1)) s.length)).drop (hi * i)).length ∧
    ((s.take (min (hi * (i + 1)) s.length)).drop (hi * i)).length ≤ hi := by
  have h1 : (i + 1) * hi ≤ s.length + hi - 1 := (Nat.le_div_iff_mul_le (by omega)).mp h
  have e2 : hi * (i + 1) = hi * i + hi := Nat.mul_succ hi i
  have e3 : (i + 1) * hi = hi * i + hi := by rw [Nat.mul_comm, e2]
  rw [List.length_drop, List.length_take, e2]
  omega

/-- The `s` flag matters: without it the line feed between `a` and `b` is matched by no chunk
and is lost from the concatenation. -/
theorem chunks_without_dotAll_drop_newline :
    ((stringMatchAll false 2000 [0x61, 0x0A, 0x62]).getD []).flatten = [0x61, 0x62] := by
  decide

/-- C1. Concatenating, in order, the chunks `s.match(/.{1,2000}/gs) || []` gives back `s` for
every string `s`, line terminators included; the same holds for `/.{1,maxLen}/gs` with every
`maxLen >= 1`. -/
theorem chunks_concat_roundtrip (s : JSString) (maxLen : Nat) (h : 1 ≤ maxLen) :
    (contentParts s).flatten = s ∧ (chunk maxLen s).flatten = s :=
  ⟨chunk_flatten MAX_CHUNK_LEN (by decide) s, chunk_flatten maxLen h s⟩

/-- C1 at the string `a`, line feed, `b` and the limit 2. -/
theorem chunks_concat_roundtrip_witness :
    1 ≤ 2 ∧ (contentParts [0x61, 0x0A, 0x62]).flatten = [0x61, 0x0A, 0x62] ∧
      (chunk 2 [0x61, 0x0A, 0x62]).flatten = [0x61, 0x0A, 0x62] :=
  ⟨by decide, chunks_concat_roundtrip [0x61, 0x0A, 0x62] 2 (by decide)⟩

/-- C2. The chunks of `s.match(/.{1,2000}/gs) || []` are the reference slicing: there are
`ceil(n / 2000)` of them, the `i`-th is the slice of `s` from `2000 * i` to
`min (2000 * (i + 1)) n`; every chunk but the last has length 2000, the last has length between
1 and 2000, and the empty string gives no chunk. -/
theorem contentParts_eq_slices (s : JSString) :
    contentParts s = sliceChunks 2000 s ∧
    (contentParts s).length = (s.length + 2000 - 1) / 2000 ∧
    (∀ (i : Nat) (h : i < (contentParts s).length),
        (contentParts s)[i] = (s.take (min (2000 * (i + 1)) s.length)).drop (2000 * i)) ∧
    (∀ (i : Nat) (h : i + 1 < (contentParts s).length), ((contentParts s)[i]).length = 2000) ∧
    (∀ c : JSString, (contentParts s).getLast? = some c → 1 ≤ c.length ∧ c.length ≤ 2000) ∧
    (s = [] → contentParts s = []) := by
  have hc : contentParts s = sliceChunks 2000 s := chunk_eq_sliceChunks 2000 (by decide) s
  have key : ∀ l : List JSString, l = sliceChunks 2000 s →
      l = sliceChunks 2000 s ∧
      l.length = (s.length + 2000 - 1) / 2000 ∧
      (∀ (i : Nat) (h : i < l.length),
          l[i] = (s.take (min (2000 * (i + 1)) s.length)).drop (2000 * i)) ∧
      (∀ (i : Nat) (h : i + 1 < l.length), (l[i]).length = 2000) ∧
      (∀ c : JSString, l.getLast? = some c → 1 ≤ c.length ∧ c.length ≤ 2000) ∧
      (s = [] → l = []) := by
    intro l hl
    subst hl
    have hlen := sliceChunks_length 2000 s
    refine ⟨rfl, hlen, ?_, ?_, ?_, ?_⟩
    · intro i h
      exact sliceChunks_getElem 2000 s i h
    · intro i h
      rw [sliceChunks_getElem 2000 s i (by omega)]
      exact slice_length_full 2000 (by decide) s i (by rw [← hlen]; exact h)
    · intro c hcl
      rw [List.getLast?_eq_getElem?] at hcl
      have hpos : (sliceChunks 2000 s).length - 1 < (sliceChunks 2000 s).length := by
        rcases Nat.eq_zero_or_pos (sliceChunks 2000 s).length with h0 | h0
        · rw [List.getElem?_eq_none (by omega)] at hcl; cases hcl
        · omega
      rw [List.getElem?_eq_getElem hpos] at hcl
      have hcl2 := Option.some.inj hcl
      rw [← hcl2, sliceChunks_getElem 2000 s _ hpos]
      exact slice_length_last 2000 (by decide) s _ (by rw [← hlen]; exact hpos)
    · intro h0
      subst h0
      exact sliceChunks_nil 2000 (by decide)
  exact key _ hc


/-! ## Extractor -/

/-- A `finally` block that lets a value through did not change it. -/
theorem finallyClose_returned {α : Type} (l c : Bool) (r : Outcome α) (v : α)
    (h : Outcome.finallyClose l c r = .returned v) : r = .returned v := by
  unfold Outcome.finallyClose at h
  split at h
  · cases h
  · exact h

/-- The generation step never throws: it gives `null` or the trimmed text of a generation that
returned text. -/
theorem processPatchNotesWithChatGPT_returns (openai : Option JSString)
    (generate : JSString → JSString → Outcome (Option JSString)) (content : JSString) :
    processPatchNotesWithChatGPT openai generate content = .returned none ∨
    ∃ key text, openai = some key ∧
      generate key (PROMPT_PREFIX ++ content) = .returned (some text) ∧
      processPatchNotesWithChatGPT openai generate content = .returned (some (trim text)) := by
  unfold processPatchNotesWithChatGPT
  cases openai with
  | none => left; rfl
  | some key =>
    simp only
    cases hg : generate key (PROMPT_PREFIX ++ content) with
    | threw => left; rfl
    | returned v =>
      cases v with
      | none => left; rfl
      | some text => right; exact ⟨key, text, rfl, hg, rfl⟩

/-- What a returned document is: the url passed in, and the non-empty trimmed text of the
generation made on the trimmed, non-empty text of the content nodes. -/
theorem getLatestPatchNotesContent_some (w : World) (openai url : Option JSString)
    (doc : Document) (h : getLatestPatchNotesContent w openai url = .returned (some doc)) :
    doc.url = url ∧ doc.content ≠ [] ∧
    ∃ nodes key text, (w.page url).content = .returned nodes ∧ nodes ≠ [] ∧
      trim nodes.flatten ≠ [] ∧ openai = some key ∧
      w.generate key (PROMPT_PREFIX ++ trim nodes.flatten) = .returned (some text) ∧
      doc.content = trim text := by
  unfold getLatestPatchNotesContent at h
  have h' := finallyClose_returned _ _ _ _ h
  clear h
  simp only at h'
  split at h'
  · cases h'
  split at h'
  · cases h'
  split at h'
  · cases h'
  split at h'
  · cases h'
  split at h'
  · cases h'
  · rename_i nodes hn
    split at h'
    · cases h'
    split at h'
    · cases h'
    · rename_i hlen hraw
      rcases processPatchNotesWithChatGPT_returns openai w.generate (trim nodes.flatten) with
        hp | ⟨key, text, hk, hg, hp⟩
      · rw [hp] at h'
        simp [truthy, Outcome.catchReturnNull] at h'
      · rw [hp] at h'
        by_cases hc : trim text = []
        · simp [truthy, Outcome.catchReturnNull, hc] at h'
        · have he : (trim text).isEmpty = false := by
            cases ht : trim text with
            | nil => exact absurd ht hc
            | cons _ _ => rfl
          simp only [truthy, he, Bool.not_false, Bool.not_true, Bool.false_eq_true, if_false,
            Outcome.catchReturnNull, Option.getD_some, Outcome.returned.injEq,
            Option.some.injEq] at h'
          subst h'
          refine ⟨rfl, hc, nodes, key, text, hn, ?_, ?_, hk, hg, rfl⟩
          · intro h0; subst h0; simp at hlen
          · simpa [truthy] using hraw


/-! ## Change detector and dispatcher -/

/-- A url built on the site origin is not the empty string. -/
theorem SITE_append_ne_nil (x : JSString) : SITE ++ x ≠ [] := by
  intro h
  have h2 := congrArg List.length h
  rw [List.length_append] at h2
  have h3 : 0 < SITE.length := by decide
  simp only [List.length_nil] at h2
  omega

/-- A url returned by `getLatestThreadUrl` is never the empty string. -/
theorem getLatestThreadUrl_truthy (f : ForumSession) (u : JSString)
    (h : getLatestThreadUrl f = .returned (some u)) : truthy (some u) = true := by
  unfold getLatestThreadUrl at h
  have h' := finallyClose_returned _ _ _ _ h
  clear h
  revert h'
  cases f.launch <;> cases f.newPage <;> cases f.goto <;> cases f.href <;>
    simp [Outcome.catchReturnNull]
  rename_i link
  cases link with
  | none => simp [truthy]
  | some l =>
    cases hl : l with
    | nil => simp [truthy]
    | cons a as =>
      simp only [truthy, List.isEmpty_cons, Bool.not_false, Bool.true_eq_false, if_false,
        Option.getD_some, Outcome.returned.injEq, Option.some.injEq]
      intro h
      subst h
      cases hx : SITE ++ a :: as with
      | nil => exact absurd hx (SITE_append_ne_nil _)
      | cons _ _ => rfl

/-- The paths of one polling cycle: the guard on an empty registry, a detection that throws, a
detection that gives nothing new, and a new url followed by an extraction that throws, gives
nothing, or gives a document, which is then delivered to every entry. -/
theorem checkForUpdates_cases (w : World) (st : BotState) :
    (st.serverConfigs = [] ∧ checkForUpdates w st = ⟨st, [], .returned ()⟩) ∨
    (st.serverConfigs ≠ [] ∧ getLatestThreadUrl w.forum = .threw ∧
      checkForUpdates w st = ⟨st, [.detect .threw], .threw⟩) ∨
    (st.serverConfigs ≠ [] ∧ ∃ r, getLatestThreadUrl w.forum = .returned r ∧
      (r = none ∨ r = st.latestThreadUrl) ∧
      checkForUpdates w st = ⟨st, [.detect (.returned r)], .returned ()⟩) ∨
    (st.serverConfigs ≠ [] ∧ ∃ u, getLatestThreadUrl w.forum = .returned (some u) ∧
      some u ≠ st.latestThreadUrl ∧
      getLatestPatchNotesContent w st.openai (some u) = .threw ∧
      checkForUpdates w st =
        ⟨{ st with latestThreadUrl := some u },
          [.detect (.returned (some u)), .setLatest (some u), .extract (some u) .threw],
          .threw⟩) ∨
    (st.serverConfigs ≠ [] ∧ ∃ u, getLatestThreadUrl w.forum = .returned (some u) ∧
      some u ≠ st.latestThreadUrl ∧
      getLatestPatchNotesContent w st.openai (some u) = .returned none ∧
      checkForUpdates w st =
        ⟨{ st with latestThreadUrl := some u },
          [.detect (.returned (some u)), .setLatest (some u),
            .extract (some u) (.returned none)],
          .returned ()⟩) ∨
    (st.serverConfigs ≠ [] ∧ ∃ u doc, getLatestThreadUrl w.forum = .returned (some u) ∧
      some u ≠ st.latestThreadUrl ∧
      getLatestPatchNotesContent w st.openai (some u) = .returned (some doc) ∧
      checkForUpdates w st =
        ⟨{ st with latestThreadUrl := some u },
          [.detect (.returned (some u)), .setLatest (some u),
            .extract (some u) (.returned (some doc))] ++
            st.serverConfigs.flatMap (deliverTo w doc),
          .returned ()⟩) := by
  by_cases hreg : st.serverConfigs = []
  · left
    refine ⟨hreg, ?_⟩
    simp [checkForUpdates, hreg]
  · right
    have hlen : (st.serverConfigs.length == 0) = false := by
      cases hs : st.serverConfigs with
      | nil => exact absurd hs hreg
      | cons _ _ => rfl
    cases hd : getLatestThreadUrl w.forum with
    | threw =>
      left
      refine ⟨hreg, rfl, ?_⟩
      simp [checkForUpdates, hlen, hd]
    | returned r =>
      right
      by_cases hnew : truthy r = true ∧ r ≠ st.latestThreadUrl
      · right
        obtain ⟨ht, hne⟩ := hnew
        cases r with
        | none => simp [truthy] at ht
        | some u =>
          have hcond : (truthy (some u) && decide (some u ≠ st.latestThreadUrl)) = true := by
            simp [ht, hne]
          cases hx : getLatestPatchNotesContent w st.openai (some u) with
          | threw =>
            left
            refine ⟨hreg, u, rfl, hne, hx, ?_⟩
            simp only [checkForUpdates, hlen, hd, hcond, hx]
            rfl
          | returned v =>
            right
            cases v with
            | none =>
              left
              refine ⟨hreg, u, rfl, hne, hx, ?_⟩
              simp only [checkForUpdates, hlen, hd, hcond, hx]
              rfl
            | some doc =>
              right
              refine ⟨hreg, u, doc, rfl, hne, hx, ?_⟩
              have hc := (getLatestPatchNotesContent_some w st.openai (some u) doc hx).2.1
              have hc2 : (!truthy (some doc.content)) = false := by
                cases hcc : doc.content with
                | nil => exact absurd hcc hc
                | cons _ _ => rfl
              simp only [checkForUpdates, hlen, hd, hcond, hx, hc2]
              rfl
      · left
        refine ⟨hreg, r, rfl, ?_, ?_⟩
        · by_cases h1 : r = st.latestThreadUrl
          · right; exact h1
          · left
            cases r with
            | none => rfl
            | some u =>
              exfalso
              exact hnew ⟨getLatestThreadUrl_truthy _ _ hd, h1⟩
        · have hcond : (truthy r && decide (r ≠ st.latestThreadUrl)) = false := by
            by_cases h1 : truthy r = true
            · have : r = st.latestThreadUrl := by
                by_contra h2
                exact hnew ⟨h1, h2⟩
              simp [this]
            · simp [h1]
          simp only [checkForUpdates, hlen, hd, hcond]
          rfl


/-- A sequence of sends produces send events only. -/
theorem sendAll_not_extract (w : World) (g : GuildId) (c : JSString) (msgs : List JSString) :
    ∀ (n : Nat) (e : Event), e ∈ (sendAll w g c n msgs).1 → e.isSend = true := by
  induction msgs with
  | nil => intro n e h; simp [sendAll] at h
  | cons m ms ih =>
    intro n e h
    unfold sendAll at h
    split at h
    · simp only [List.mem_cons] at h
      rcases h with h | h
      · subst h; rfl
      · exact ih _ _ h
    · simp only [List.mem_singleton] at h
      subst h; rfl

/-- The loop body for one entry produces the fetch for that entry and send events only. -/
theorem deliverTo_events (w : World) (doc : Document) (entry : GuildId × ServerConfig)
    (e : Event) (h : e ∈ deliverTo w doc entry) :
    (∃ ok, e = Event.fetch entry.1 entry.2.channelId ok) ∨ e.isSend = true := by
  unfold deliverTo at h
  split at h
  · simp only [List.mem_cons] at h
    rcases h with h | h
    · left; exact ⟨true, h⟩
    · right; exact sendAll_not_extract _ _ _ _ _ _ h
  · simp only [List.mem_singleton] at h
    left; exact ⟨false, h⟩

/-- The fan-out produces fetch and send events only. -/
theorem fanout_events (w : World) (doc : Document) (reg : Registry) (e : Event)
    (h : e ∈ reg.flatMap (deliverTo w doc)) :
    (∃ g c ok, e = Event.fetch g c ok) ∨ e.isSend = true := by
  rw [List.mem_flatMap] at h
  obtain ⟨entry, _, he⟩ := h
  rcases deliverTo_events w doc entry e he with ⟨ok, h1⟩ | h1
  · left; exact ⟨_, _, ok, h1⟩
  · right; exact h1

/-- The fan-out makes no extraction. -/
theorem extractions_fanout (w : World) (doc : Document) (reg : Registry) :
    extractions (reg.flatMap (deliverTo w doc)) = [] := by
  unfold extractions
  rw [List.filter_eq_nil_iff]
  intro e he
  rcases fanout_events w doc reg e he with ⟨g, c, ok, h1⟩ | h1
  · subst h1; simp [Event.isExtract]
  · cases e <;> simp_all [Event.isExtract, Event.isSend]

/-- A cycle whose trace shows an extraction that returned a document took the delivering
path. -/
theorem delivering_cycle (w : World) (st : BotState) (u : JSString) (doc : Document)
    (hx : Event.extract (some u) (.returned (some doc)) ∈ (checkForUpdates w st).trace) :
    st.serverConfigs ≠ [] ∧ getLatestThreadUrl w.forum = .returned (some u) ∧
    some u ≠ st.latestThreadUrl ∧
    getLatestPatchNotesContent w st.openai (some u) = .returned (some doc) ∧
    checkForUpdates w st =
      ⟨{ st with latestThreadUrl := some u },
        [.detect (.returned (some u)), .setLatest (some u),
          .extract (some u) (.returned (some doc))] ++
          st.serverConfigs.flatMap (deliverTo w doc),
        .returned ()⟩ := by
  rcases checkForUpdates_cases w st with ⟨_, h⟩ | ⟨_, _, h⟩ | ⟨_, r, _, _, h⟩ |
    ⟨_, u', _, _, _, h⟩ | ⟨_, u', _, _, _, h⟩ | ⟨hreg, u', doc', hd, hne, hex, h⟩
  · rw [h] at hx; simp at hx
  · rw [h] at hx; simp at hx
  · rw [h] at hx; simp at hx
  · rw [h] at hx; simp at hx
  · rw [h] at hx; simp at hx
  · rw [h] at hx
    simp only [List.mem_append, List.mem_cons, List.mem_singleton, List.not_mem_nil,
      or_false] at hx
    rcases hx with (h1 | h1 | h1) | h1
    · cases h1
    · cases h1
    · injection h1 with hu hd'
      injection hu with hu
      injection hd' with hd'
      injection hd' with hd'
      subst hu; subst hd'
      exact ⟨hreg, hd, hne, hex, h⟩
    · exfalso
      rcases fanout_events w doc' _ _ h1 with ⟨g, c, ok, h2⟩ | h2
      · cases h2
      · simp [Event.isSend] at h2

/-- A cycle whose trace shows an extraction that returned nothing stopped there. -/
theorem failed_extraction_cycle (w : World) (st : BotState) (u : JSString)
    (hx : Event.extract (some u) (.returned none) ∈ (checkForUpdates w st).trace) :
    st.serverConfigs ≠ [] ∧ getLatestThreadUrl w.forum = .returned (some u) ∧
    some u ≠ st.latestThreadUrl ∧
    checkForUpdates w st =
      ⟨{ st with latestThreadUrl := some u },
        [.detect (.returned (some u)), .setLatest (some u),
          .extract (some u) (.returned none)],
        .returned ()⟩ := by
  rcases checkForUpdates_cases w st with ⟨_, h⟩ | ⟨_, _, h⟩ | ⟨_, r, _, _, h⟩ |
    ⟨_, u', _, _, _, h⟩ | ⟨hreg, u', hd, hne, _, h⟩ | ⟨_, u', doc', _, _, _, h⟩
  · rw [h] at hx; simp at hx
  · rw [h] at hx; simp at hx
  · rw [h] at hx; simp at hx
  · rw [h] at hx; simp at hx
  · rw [h] at hx
    simp only [List.mem_cons, List.mem_singleton, List.not_mem_nil, or_false] at hx
    rcases hx with h1 | h1 | h1
    · cases h1
    · cases h1
    · injection h1 with hu _
      injection hu with hu
      subst hu
      exact ⟨hreg, hd, hne, h⟩
  · rw [h] at hx
    simp only [List.mem_append, List.mem_cons, List.mem_singleton, List.not_mem_nil,
      or_false] at hx
    rcases hx with (h1 | h1 | h1) | h1
    · cases h1
    · cases h1
    · injection h1 with _ hd'
      injection hd' with hd'
      cases hd'
    · exfalso
      rcases fanout_events w doc' _ _ h1 with ⟨g, c, ok, h2⟩ | h2
      · cases h2
      · simp [Event.isSend] at h2

/-- A cycle whose detection gives nothing, or the url already held, changes nothing and does
at most the detection. -/
theorem checkForUpdates_unchanged (w : World) (st : BotState) (r : Option JSString)
    (hd : getLatestThreadUrl w.forum = .returned r) (hr : r = none ∨ r = st.latestThreadUrl) :
    (checkForUpdates w st).state = st ∧ (checkForUpdates w st).result = .returned () ∧
    ((checkForUpdates w st).trace = [] ∨
      (checkForUpdates w st).trace = [.detect (.returned r)]) := by
  have hcontra : ∀ u, getLatestThreadUrl w.forum = .returned (some u) →
      some u ≠ st.latestThreadUrl → False := by
    intro u h1 h2
    rw [hd] at h1
    injection h1 with h1
    subst h1
    rcases hr with h | h
    · cases h
    · exact h2 h
  rcases checkForUpdates_cases w st with ⟨_, h⟩ | ⟨_, h0, h⟩ | ⟨_, r', hd', _, h⟩ |
    ⟨_, u', hd', hne, _, h⟩ | ⟨_, u', hd', hne, _, h⟩ | ⟨_, u', doc', hd', hne, _, h⟩
  · rw [h]; exact ⟨rfl, rfl, Or.inl rfl⟩
  · rw [hd] at h0; cases h0
  · rw [hd] at hd'
    injection hd' with hd'
    subst hd'
    rw [h]; exact ⟨rfl, rfl, Or.inr rfl⟩
  · exact absurd (hcontra u' hd' hne) id
  · exact absurd (hcontra u' hd' hne) id
  · exact absurd (hcontra u' hd' hne) id

/-- With an empty registry the cycle returns at the guard of line 172. -/
theorem checkForUpdates_empty (w : World) (st : BotState) (h : st.serverConfigs = []) :
    checkForUpdates w st = ⟨st, [], .returned ()⟩ := by
  simp [checkForUpdates, h]

/-- C3. A cycle whose detection returns absent, or the url already held, is a no-op: the whole
state (held url, registry, client, file) is unchanged, no extraction is made and nothing is sent.
Of two consecutive cycles whose detection returns the same result, the second extracts nothing
and sends nothing, so at most one of the two delivers. -/
theorem noop_cycle_idempotent (w1 w2 : World) (st : BotState) (r : Option JSString)
    (h1 : getLatestThreadUrl w1.forum = .returned r)
    (h2 : getLatestThreadUrl w2.forum = .returned r) :
    ((r = none ∨ r = st.latestThreadUrl) →
      (checkForUpdates w1 st).state = st ∧
      extractions (checkForUpdates w1 st).trace = [] ∧
      sends (checkForUpdates w1 st).trace = []) ∧
    extractions (checkForUpdates w2 (checkForUpdates w1 st).state).trace = [] ∧
    sends (checkForUpdates w2 (checkForUpdates w1 st).state).trace = [] ∧
    (sends (checkForUpdates w1 st).trace = [] ∨
      sends (checkForUpdates w2 (checkForUpdates w1 st).state).trace = []) := by
  have quiet : ∀ (w : World) (s : BotState), getLatestThreadUrl w.forum = .returned r →
      (r = none ∨ r = s.latestThreadUrl) →
      (checkForUpdates w s).state = s ∧ extractions (checkForUpdates w s).trace = [] ∧
        sends (checkForUpdates w s).trace = [] := by
    intro w s hd hr
    obtain ⟨hs, _, ht | ht⟩ := checkForUpdates_unchanged w s r hd hr
    · exact ⟨hs, by rw [ht]; rfl, by rw [ht]; rfl⟩
    · exact ⟨hs, by rw [ht]; rfl, by rw [ht]; rfl⟩
  have second : extractions (checkForUpdates w2 (checkForUpdates w1 st).state).trace = [] ∧
      sends (checkForUpdates w2 (checkForUpdates w1 st).state).trace = [] := by
    rcases checkForUpdates_cases w1 st with ⟨hreg, h⟩ | ⟨_, h0, h⟩ | ⟨_, r', hd', hr', h⟩ |
      ⟨_, u', hd', hne, _, h⟩ | ⟨_, u', hd', hne, _, h⟩ | ⟨_, u', doc', hd', hne, _, h⟩
    · rw [h, checkForUpdates_empty w2 st hreg]
      exact ⟨rfl, rfl⟩
    · rw [h1] at h0; cases h0
    · rw [h1] at hd'
      injection hd' with hd'
      subst hd'
      rw [h]
      exact (quiet w2 st h2 hr').2
    all_goals
      rw [h1] at hd'
      injection hd' with hd'
      subst hd'
      rw [h]
      exact (quiet w2 _ h2 (Or.inr rfl)).2
  exact ⟨quiet w1 st h1, second.1, second.2, Or.inr second.2⟩

/-- C3 at a first cycle that delivers thread `/a` and a second that sees `/a` again. -/
theorem noop_cycle_idempotent_witness :
    getLatestThreadUrl (calmWorld (lit "/a")).forum = .returned (some (SITE ++ lit "/a")) ∧
    ((some (SITE ++ lit "/a") = none ∨ some (SITE ++ lit "/a") = configuredState.latestThreadUrl) →
      (checkForUpdates (calmWorld (lit "/a")) configuredState).state = configuredState ∧
      extractions (checkForUpdates (calmWorld (lit "/a")) configuredState).trace = [] ∧
      sends (checkForUpdates (calmWorld (lit "/a")) configuredState).trace = []) ∧
    extractions (checkForUpdates (calmWorld (lit "/a"))
      (checkForUpdates (calmWorld (lit "/a")) configuredState).state).trace = [] ∧
    sends (checkForUpdates (calmWorld (lit "/a"))
      (checkForUpdates (calmWorld (lit "/a")) configuredState).state).trace = [] ∧
    (sends (checkForUpdates (calmWorld (lit "/a")) configuredState).trace = [] ∨
      sends (checkForUpdates (calmWorld (lit "/a"))
        (checkForUpdates (calmWorld (lit "/a")) configuredState).state).trace = []) :=
  ⟨by decide,
    noop_cycle_idempotent (calmWorld (lit "/a")) (calmWorld (lit "/a")) configuredState
      (some (SITE ++ lit "/a")) (by decide) (by decide)⟩


/-- The guard of line 172 at work: with an empty registry the cycle returns before detection is
called (its trace is empty), so a thread the forum shows is not adopted by that cycle. -/
theorem empty_registry_adopts_nothing :
    freshState.serverConfigs = [] ∧
    getLatestThreadUrl (calmWorld (lit "/a")).forum = .returned (some (SITE ++ lit "/a")) ∧
    some (SITE ++ lit "/a") ≠ freshState.latestThreadUrl ∧
    (checkForUpdates (calmWorld (lit "/a")) freshState).trace = [] ∧
    (checkForUpdates (calmWorld (lit "/a")) freshState).state.latestThreadUrl
      ≠ some (SITE ++ lit "/a") := by
  decide

/-- With a non-empty registry, a detection that returns a url other than the held one is
followed by the assignment of that url and then by the only extraction of the cycle. -/
theorem adopted_of_detection (w : World) (st : BotState) (u : JSString)
    (hreg : st.serverConfigs ≠ [])
    (hd : getLatestThreadUrl w.forum = .returned (some u))
    (hne : some u ≠ st.latestThreadUrl) :
    (checkForUpdates w st).state.latestThreadUrl = some u ∧
    ∃ post, (checkForUpdates w st).trace =
        [.detect (.returned (some u)), .setLatest (some u),
          .extract (some u) (getLatestPatchNotesContent w st.openai (some u))] ++ post ∧
      extractions post = [] := by
  have same : ∀ u', getLatestThreadUrl w.forum = .returned (some u') → u' = u := by
    intro u' h
    rw [hd] at h
    injection h with h
    injection h with h
    exact h.symm
  rcases checkForUpdates_cases w st with ⟨hreg', _⟩ | ⟨_, h0, _⟩ | ⟨_, r', hd', hr', _⟩ |
    ⟨_, u', hd', _, hx, h⟩ | ⟨_, u', hd', _, hx, h⟩ | ⟨_, u', doc', hd', _, hx, h⟩
  · exact absurd hreg' hreg
  · rw [hd] at h0; cases h0
  · rw [hd] at hd'
    injection hd' with hd'
    subst hd'
    rcases hr' with h | h
    · cases h
    · exact absurd h hne
  · have := same u' hd'; subst this
    rw [h, hx]
    exact ⟨rfl, [], rfl, rfl⟩
  · have := same u' hd'; subst this
    rw [h, hx]
    exact ⟨rfl, [], rfl, rfl⟩
  · have := same u' hd'; subst this
    rw [h, hx]
    exact ⟨rfl, _, rfl, extractions_fanout w doc' _⟩

/-- A cycle whose trace shows a detection that returned the url `u` had a non-empty registry and
a forum session on which `getLatestThreadUrl` returns `u`. -/
theorem detecting_cycle (w : World) (st : BotState) (u : JSString)
    (hd : Event.detect (.returned (some u)) ∈ (checkForUpdates w st).trace) :
    st.serverConfigs ≠ [] ∧ getLatestThreadUrl w.forum = .returned (some u) := by
  rcases checkForUpdates_cases w st with ⟨_, h⟩ | ⟨_, _, h⟩ | ⟨hreg, r, hd', _, h⟩ |
    ⟨hreg, u', hd', _, _, h⟩ | ⟨hreg, u', hd', _, _, h⟩ | ⟨hreg, u', doc', hd', _, _, h⟩
  · rw [h] at hd; simp at hd
  · rw [h] at hd; simp at hd
  · rw [h] at hd
    simp only [List.mem_singleton] at hd
    injection hd with hd
    injection hd with hd
    subst hd
    exact ⟨hreg, hd'⟩
  · rw [h] at hd
    simp only [List.mem_cons, List.mem_singleton, List.not_mem_nil, or_false] at hd
    rcases hd with h1 | h1 | h1
    · injection h1 with h1
      injection h1 with h1
      injection h1 with h1
      subst h1
      exact ⟨hreg, hd'⟩
    · cases h1
    · cases h1
  · rw [h] at hd
    simp only [List.mem_cons, List.mem_singleton, List.not_mem_nil, or_false] at hd
    rcases hd with h1 | h1 | h1
    · injection h1 with h1
      injection h1 with h1
      injection h1 with h1
      subst h1
      exact ⟨hreg, hd'⟩
    · cases h1
    · cases h1
  · rw [h] at hd
    simp only [List.mem_append, List.mem_cons, List.mem_singleton, List.not_mem_nil,
      or_false] at hd
    rcases hd with (h1 | h1 | h1) | h1
    · injection h1 with h1
      injection h1 with h1
      injection h1 with h1
      subst h1
      exact ⟨hreg, hd'⟩
    · cases h1
    · cases h1
    · exfalso
      rcases fanout_events w doc' _ _ h1 with ⟨g, c, ok, h2⟩ | h2
      · cases h2
      · simp [Event.isSend] at h2

/-- C4. For every state (every held url, every registry) and every cycle of `checkForUpdates`
in which detection returns a url `u` other than the held one, `u` is the held url after the
cycle, whether the extraction that follows throws, gives nothing or gives a document, and
whether or not anything is delivered; in the trace the assignment of `u` comes right after the
detection and before the extraction, which is the only one of the cycle. (With an empty
registry no cycle calls detection, so there the statement has no instance.) -/
theorem new_url_adopted_before_extraction (w : World) (st : BotState) (u : JSString)
    (hd : Event.detect (.returned (some u)) ∈ (checkForUpdates w st).trace)
    (hne : some u ≠ st.latestThreadUrl) :
    (checkForUpdates w st).state.latestThreadUrl = some u ∧
    ∃ post, (checkForUpdates w st).trace =
        [.detect (.returned (some u)), .setLatest (some u),
          .extract (some u) (getLatestPatchNotesContent w st.openai (some u))] ++ post ∧
      extractions post = [] :=
  adopted_of_detection w st u (detecting_cycle w st u hd).1 (detecting_cycle w st u hd).2 hne

/-- C4 at one configured guild, no url held, and a forum whose first thread is `/a`. -/
theorem new_url_adopted_before_extraction_witness :
    Event.detect (.returned (some (SITE ++ lit "/a")))
      ∈ (checkForUpdates (calmWorld (lit "/a")) configuredState).trace ∧
    some (SITE ++ lit "/a") ≠ configuredState.latestThreadUrl ∧
    (checkForUpdates (calmWorld (lit "/a")) configuredState).state.latestThreadUrl
      = some (SITE ++ lit "/a") ∧
    ∃ post, (checkForUpdates (calmWorld (lit "/a")) configuredState).trace =
        [.detect (.returned (some (SITE ++ lit "/a"))), .setLatest (some (SITE ++ lit "/a")),
          .extract (some (SITE ++ lit "/a")) (getLatestPatchNotesContent (calmWorld (lit "/a"))
            configuredState.openai (some (SITE ++ lit "/a")))] ++ post ∧
      extractions post = [] :=
  ⟨by decide, by decide,
    new_url_adopted_before_extraction (calmWorld (lit "/a")) configuredState (SITE ++ lit "/a")
      (by decide) (by decide)⟩

/-- While the held url is `u` and no detection returns another url, cycles extract nothing, send
nothing and keep `u`. -/
theorem runCycles_quiet (u : JSString) (ws : List World) :
    ∀ (st : BotState), st.latestThreadUrl = some u →
      (∀ w ∈ ws, ∀ v, getLatestThreadUrl w.forum = .returned (some v) → v = u) →
      ∀ c ∈ runCycles ws st,
        extractions c.trace = [] ∧ sends c.trace = [] ∧ c.state.latestThreadUrl = some u := by
  induction ws with
  | nil => intro st _ _ c hc; simp [runCycles] at hc
  | cons w ws ih =>
    intro st hst hws c hc
    have hw := hws w (List.mem_cons_self _ _)
    have step : (checkForUpdates w st).state.latestThreadUrl = some u ∧
        extractions (checkForUpdates w st).trace = [] ∧
        sends (checkForUpdates w st).trace = [] := by
      rcases checkForUpdates_cases w st with ⟨_, h⟩ | ⟨_, _, h⟩ | ⟨_, r', _, _, h⟩ |
        ⟨_, u', hd', hne, _, _⟩ | ⟨_, u', hd', hne, _, _⟩ | ⟨_, u', doc', hd', hne, _, _⟩
      · rw [h]; exact ⟨hst, rfl, rfl⟩
      · rw [h]; exact ⟨hst, rfl, rfl⟩
      · rw [h]; exact ⟨hst, rfl, rfl⟩
      all_goals
        exfalso
        have := hw u' hd'
        subst this
        exact hne hst.symm
    simp only [runCycles, List.mem_cons] at hc
    rcases hc with hc | hc
    · subst hc
      exact ⟨step.2.1, step.2.2, step.1⟩
    · exact ih _ step.1 (fun w' hw' => hws w' (List.mem_cons_of_mem _ hw')) c hc

/-- C5, as stated, fails: the forum shows thread `/a`, then thread `/b`, then thread `/a`
again, and no generation client is set, so every extraction gives nothing. The first cycle
detects `/a`, extracts nothing and leaves `/a` held; the third cycle's detection returns `/a`
again, and it extracts `/a` again, because the url held by then is `/b`. -/
theorem reextraction_after_other_url :
    Event.detect (.returned (some (SITE ++ lit "/a")))
      ∈ (checkForUpdates (calmWorld (lit "/a")) clientlessState).trace ∧
    Event.extract (some (SITE ++ lit "/a")) (.returned none)
      ∈ (checkForUpdates (calmWorld (lit "/a")) clientlessState).trace ∧
    (checkForUpdates (calmWorld (lit "/a")) clientlessState).state.latestThreadUrl
      = some (SITE ++ lit "/a") ∧
    Event.detect (.returned (some (SITE ++ lit "/a")))
      ∈ (checkForUpdates (calmWorld (lit "/a"))
          (checkForUpdates (calmWorld (lit "/b"))
            (checkForUpdates (calmWorld (lit "/a")) clientlessState).state).state).trace ∧
    Event.extract (some (SITE ++ lit "/a")) (.returned none)
      ∈ (checkForUpdates (calmWorld (lit "/a"))
          (checkForUpdates (calmWorld (lit "/b"))
            (checkForUpdates (calmWorld (lit "/a")) clientlessState).state).state).trace := by
  decide

/-- C5, amended. A cycle whose extraction of the url `u` returned nothing had detected `u` as
new, leaves `u` held and sends nothing; and in the cycles that follow, as long as no detection
returns a url other than `u` (it returns `u` again, or nothing, or throws), no cycle extracts,
no cycle sends and `u` stays held. -/
theorem failed_extraction_marks_seen (w : World) (st : BotState) (u : JSString)
    (ws : List World)
    (hx : Event.extract (some u) (.returned none) ∈ (checkForUpdates w st).trace)
    (hws : ∀ w' ∈ ws, ∀ v, getLatestThreadUrl w'.forum = .returned (some v) → v = u) :
    Event.detect (.returned (some u)) ∈ (checkForUpdates w st).trace ∧
    st.latestThreadUrl ≠ some u ∧
    (checkForUpdates w st).state.latestThreadUrl = some u ∧
    sends (checkForUpdates w st).trace = [] ∧
    ∀ c ∈ runCycles ws (checkForUpdates w st).state,
      extractions c.trace = [] ∧ sends c.trace = [] ∧ c.state.latestThreadUrl = some u := by
  obtain ⟨_, _, hne, h⟩ := failed_extraction_cycle w st u hx
  refine ⟨by rw [h]; simp, fun h' => hne h'.symm, by rw [h], by rw [h]; rfl, ?_⟩
  exact runCycles_quiet u ws _ (by rw [h]) hws

/-- C5, amended, at a bot without a generation client that sees thread `/a` three times. -/
theorem failed_extraction_marks_seen_witness :
    Event.extract (some (SITE ++ lit "/a")) (.returned none)
      ∈ (checkForUpdates (calmWorld (lit "/a")) clientlessState).trace ∧
    Event.detect (.returned (some (SITE ++ lit "/a")))
      ∈ (checkForUpdates (calmWorld (lit "/a")) clientlessState).trace ∧
    clientlessState.latestThreadUrl ≠ some (SITE ++ lit "/a") ∧
    (checkForUpdates (calmWorld (lit "/a")) clientlessState).state.latestThreadUrl
      = some (SITE ++ lit "/a") ∧
    sends (checkForUpdates (calmWorld (lit "/a")) clientlessState).trace = [] ∧
    ∀ c ∈ runCycles [calmWorld (lit "/a"), calmWorld (lit "/a")]
        (checkForUpdates (calmWorld (lit "/a")) clientlessState).state,
      extractions c.trace = [] ∧ sends c.trace = [] ∧
        c.state.latestThreadUrl = some (SITE ++ lit "/a") :=
  ⟨by decide,
    failed_extraction_marks_seen (calmWorld (lit "/a")) clientlessState (SITE ++ lit "/a")
      [calmWorld (lit "/a"), calmWorld (lit "/a")] (by decide)
      (by
        intro w' hw' v hv
        simp only [List.mem_cons, List.mem_singleton, List.not_mem_nil, or_false, or_self] at hw'
        subst hw'
        have h0 : getLatestThreadUrl (calmWorld (lit "/a")).forum
            = .returned (some (SITE ++ lit "/a")) := by decide
        rw [h0] at hv
        injection hv with hv
        injection hv with hv
        exact hv.symm)⟩


/-- The fetches of a trace in two parts. -/
theorem fetches_append (a b : List Event) : fetches (a ++ b) = fetches a ++ fetches b := by
  induction a with
  | nil => rfl
  | cons e t ih => cases e <;> simp [fetches, ih]

/-- The messages of a guild in a trace in two parts. -/
theorem sentTo_append (g : GuildId) (a b : List Event) :
    sentTo g (a ++ b) = sentTo g a ++ sentTo g b := by
  induction a with
  | nil => rfl
  | cons e t ih =>
    cases e with
    | send g' c m ok =>
      simp only [List.cons_append, sentTo]
      split <;> simp [ih]
    | _ => simpa [sentTo] using ih

/-- A sequence of sends fetches no channel. -/
theorem fetches_sendAll (w : World) (g : GuildId) (c : JSString) (msgs : List JSString) :
    ∀ n, fetches (sendAll w g c n msgs).1 = [] := by
  induction msgs with
  | nil => intro n; rfl
  | cons m ms ih =>
    intro n
    unfold sendAll
    split
    · simp only [fetches]; exact ih _
    · rfl

/-- The loop body for one entry fetches the channel of that entry, once. -/
theorem fetches_deliverTo (w : World) (doc : Document) (e : GuildId × ServerConfig) :
    fetches (deliverTo w doc e) = [(e.1, e.2.channelId, w.fetchChannel e.1 e.2.channelId)] := by
  unfold deliverTo
  split
  · rename_i h
    simp only [fetches, fetches_sendAll, h]
  · rename_i h
    have h' : w.fetchChannel e.1 e.2.channelId = false := by simpa using h
    simp only [fetches, h']

/-- The fan-out fetches the channel of every entry once, in registry order. -/
theorem fetches_fanout (w : World) (doc : Document) (reg : Registry) :
    fetches (reg.flatMap (deliverTo w doc))
      = reg.map (fun e => (e.1, e.2.channelId, w.fetchChannel e.1 e.2.channelId)) := by
  induction reg with
  | nil => rfl
  | cons e t ih =>
    rw [List.flatMap_cons, fetches_append, fetches_deliverTo, ih]
    rfl

/-- When the channel of an entry resolves, the send of its header is attempted first. -/
theorem header_send_attempted (w : World) (doc : Document) (e : GuildId × ServerConfig)
    (h : w.fetchChannel e.1 e.2.channelId = true) :
    Event.send e.1 e.2.channelId (newNotesHeader e.2 doc.url) (w.send e.1 0)
      ∈ deliverTo w doc e := by
  unfold deliverTo
  rw [if_pos h]
  unfold sendAll
  cases hs : w.send e.1 0 <;> simp

/-- When the sends numbered `n`, ..., `n + msgs.length - 1` all resolve, every message is
sent. -/
theorem sendAll_all_ok (w : World) (g : GuildId) (c : JSString) (msgs : List JSString) :
    ∀ n, (∀ k, n ≤ k → k < n + msgs.length → w.send g k = true) →
      (sendAll w g c n msgs).1 = msgs.map (fun m => Event.send g c m true) := by
  induction msgs with
  | nil => intro n _; rfl
  | cons m ms ih =>
    intro n hok
    unfold sendAll
    rw [if_pos (hok n (le_refl n) (by simp))]
    simp only [List.map_cons]
    rw [ih (n + 1) (fun k h1 h2 => hok k (by omega) (by simp only [List.length_cons]; omega))]

/-- The messages of a guild whose sends all resolved. -/
theorem sentTo_map_send (g : GuildId) (c : JSString) (msgs : List JSString) :
    sentTo g (msgs.map (fun m => Event.send g c m true)) = msgs := by
  induction msgs with
  | nil => rfl
  | cons m ms ih => simp [sentTo, ih]

/-- The loop body for the entry of one guild sends nothing for another guild. -/
theorem sentTo_other (w : World) (doc : Document) (g : GuildId) (e : GuildId × ServerConfig)
    (hne : e.1 ≠ g) : sentTo g (deliverTo w doc e) = [] := by
  have key : ∀ (l : List Event),
      (∀ x ∈ l, (∃ ok, x = Event.fetch e.1 e.2.channelId ok) ∨
        ∃ t ok, x = Event.send e.1 e.2.channelId t ok) → sentTo g l = [] := by
    intro l
    induction l with
    | nil => intro _; rfl
    | cons x t ih =>
      intro hl
      have ht := ih (fun y hy => hl y (List.mem_cons_of_mem _ hy))
      rcases hl x (List.mem_cons_self _ _) with ⟨ok, hx⟩ | ⟨m, ok, hx⟩
      · subst hx; simp [sentTo, ht]
      · subst hx; simp [sentTo, ht, hne]
  apply key
  intro x hx
  unfold deliverTo at hx
  split at hx
  · simp only [List.mem_cons] at hx
    rcases hx with hx | hx
    · left; exact ⟨true, hx⟩
    · right
      have gen : ∀ (msgs : List JSString) (n : Nat) (y : Event),
          y ∈ (sendAll w e.1 e.2.channelId n msgs).1 →
          ∃ t ok, y = Event.send e.1 e.2.channelId t ok := by
        intro msgs
        induction msgs with
        | nil => intro n y hy; simp [sendAll] at hy
        | cons m ms ih =>
          intro n y hy
          unfold sendAll at hy
          split at hy
          · simp only [List.mem_cons] at hy
            rcases hy with hy | hy
            · exact ⟨m, true, hy⟩
            · exact ih _ _ hy
          · simp only [List.mem_singleton] at hy
            exact ⟨m, false, hy⟩
      exact gen _ _ _ hx
  · simp only [List.mem_singleton] at hx
    left; exact ⟨false, hx⟩

/-- In a registry without a repeated key, what a guild is sent in the fan-out is what the loop body
for its entry sends. -/
theorem sentTo_fanout (w : World) (doc : Document) (g : GuildId) (cfg : ServerConfig) :
    ∀ (reg : Registry), Registry.WF reg → (g, cfg) ∈ reg →
      sentTo g (reg.flatMap (deliverTo w doc)) = sentTo g (deliverTo w doc (g, cfg)) := by
  intro reg
  induction reg with
  | nil => intro _ h; simp at h
  | cons e t ih =>
    intro hwf hmem
    unfold Registry.WF at hwf
    rw [List.map_cons, List.nodup_cons] at hwf
    rw [List.flatMap_cons, sentTo_append]
    rcases List.mem_cons.mp hmem with h | h
    · subst h
      have rest : sentTo g (t.flatMap (deliverTo w doc)) = [] := by
        have : ∀ (l : Registry), (∀ x ∈ l, x.1 ≠ g) →
            sentTo g (l.flatMap (deliverTo w doc)) = [] := by
          intro l
          induction l with
          | nil => intro _; rfl
          | cons x xs ihx =>
            intro hx
            rw [List.flatMap_cons, sentTo_append,
              sentTo_other w doc g x (hx x (List.mem_cons_self _ _)),
              ihx (fun y hy => hx y (List.mem_cons_of_mem _ hy))]
            rfl
        apply this
        intro x hx hxg
        apply hwf.1
        have := List.mem_map_of_mem Prod.fst hx
        rw [hxg] at this
        exact this
      rw [rest, List.append_nil]
    · have hne : e.1 ≠ g := by
        intro heq
        apply hwf.1
        have := List.mem_map_of_mem Prod.fst h
        rw [heq]
        exact this
      rw [sentTo_other w doc g e hne, List.nil_append]
      exact ih hwf.2 h


/-- C6. In a delivering cycle (one whose extraction returned a document), whatever the outcomes
of resolving channels and of sending: the channels fetched are those of the registry entries,
each once and in order; every entry whose channel resolves has its header send attempted; the
function returns normally. In particular, of three entries whose second channel does not
resolve, the first and the third have their header send attempted. -/
theorem fanout_isolated (w : World) (st : BotState) (u : JSString) (doc : Document)
    (hx : Event.extract (some u) (.returned (some doc)) ∈ (checkForUpdates w st).trace) :
    fetches (checkForUpdates w st).trace
      = st.serverConfigs.map
          (fun e => (e.1, e.2.channelId, w.fetchChannel e.1 e.2.channelId)) ∧
    (∀ e ∈ st.serverConfigs, w.fetchChannel e.1 e.2.channelId = true →
      Event.send e.1 e.2.channelId (newNotesHeader e.2 (some u)) (w.send e.1 0)
        ∈ (checkForUpdates w st).trace) ∧
    (checkForUpdates w st).result = .returned () ∧
    (∀ a b c : GuildId × ServerConfig, st.serverConfigs = [a, b, c] →
      w.fetchChannel a.1 a.2.channelId = true → w.fetchChannel b.1 b.2.channelId = false →
      w.fetchChannel c.1 c.2.channelId = true →
      Event.send a.1 a.2.channelId (newNotesHeader a.2 (some u)) (w.send a.1 0)
        ∈ (checkForUpdates w st).trace ∧
      Event.fetch b.1 b.2.channelId false ∈ (checkForUpdates w st).trace ∧
      Event.send c.1 c.2.channelId (newNotesHeader c.2 (some u)) (w.send c.1 0)
        ∈ (checkForUpdates w st).trace) := by
  obtain ⟨_, _, _, hex, h⟩ := delivering_cycle w st u doc hx
  have hurl : doc.url = some u := (getLatestPatchNotesContent_some w st.openai (some u) doc hex).1
  have hdr : ∀ e ∈ st.serverConfigs, w.fetchChannel e.1 e.2.channelId = true →
      Event.send e.1 e.2.channelId (newNotesHeader e.2 (some u)) (w.send e.1 0)
        ∈ (checkForUpdates w st).trace := by
    intro e he hf
    rw [h]
    apply List.mem_append_right
    rw [List.mem_flatMap]
    refine ⟨e, he, ?_⟩
    rw [← hurl]
    exact header_send_attempted w doc e hf
  refine ⟨?_, hdr, by rw [h], ?_⟩
  · rw [h, fetches_append, fetches_fanout]
    rfl
  · intro a b c hreg ha hb hc
    refine ⟨hdr a (by rw [hreg]; simp) ha, ?_, hdr c (by rw [hreg]; simp) hc⟩
    rw [h]
    apply List.mem_append_right
    rw [List.mem_flatMap]
    refine ⟨b, by rw [hreg]; simp, ?_⟩
    unfold deliverTo
    simp [hb]

/-- C6 at three guilds: every send to the first is rejected, the channel of the second does not
resolve, the third is served. -/
theorem fanout_isolated_witness :
    Event.extract (some (SITE ++ lit "/a")) (.returned (some ⟨some (SITE ++ lit "/a"), lit "NOTES"⟩))
      ∈ (checkForUpdates (roughWorld (lit "/a")) threeGuildState).trace ∧
    Event.send guildOne.1 guildOne.2.channelId
        (newNotesHeader guildOne.2 (some (SITE ++ lit "/a"))) false
      ∈ (checkForUpdates (roughWorld (lit "/a")) threeGuildState).trace ∧
    Event.fetch guildTwo.1 guildTwo.2.channelId false
      ∈ (checkForUpdates (roughWorld (lit "/a")) threeGuildState).trace ∧
    Event.send guildThree.1 guildThree.2.channelId
        (newNotesHeader guildThree.2 (some (SITE ++ lit "/a"))) true
      ∈ (checkForUpdates (roughWorld (lit "/a")) threeGuildState).trace :=
  ⟨by decide,
    (fanout_isolated (roughWorld (lit "/a")) threeGuildState (SITE ++ lit "/a")
      ⟨some (SITE ++ lit "/a"), lit "NOTES"⟩ (by decide)).2.2.2
      guildOne guildTwo guildThree rfl (by decide) (by decide) (by decide)⟩

/-- The header of a polling cycle: it ends with the url; it starts with the role mention when
`pingRoleId` is truthy and is the banner and the url otherwise. -/
theorem newNotesHeader_shape (cfg : ServerConfig) (u : JSString) :
    u <:+: newNotesHeader cfg (some u) ∧
    (truthy cfg.pingRoleId = true →
      (lit "<@&" ++ cfg.pingRoleId.getD [] ++ lit ">") <+: newNotesHeader cfg (some u)) ∧
    (truthy cfg.pingRoleId = false →
      newNotesHeader cfg (some u) = lit " **New Star Citizen Patch Notes:**\n" ++ u) := by
  refine ⟨?_, ?_, ?_⟩
  · unfold newNotesHeader urlText
    exact (List.suffix_append _ _).isInfix
  · intro h
    unfold newNotesHeader roleMention
    rw [if_pos h]
    exact (List.prefix_append _ _).trans (List.prefix_append _ _)
  · intro h
    unfold newNotesHeader roleMention urlText
    simp [h]

/-- C7. In a cycle whose extraction returned a document: that extraction is the only one of the
cycle and comes, after the detection and the assignment of the held url, before every send; a
guild of the registry whose channel resolves and whose sends all resolve is sent exactly the
header followed by the chunks of the document's text in order, the same chunks for every such
guild; the header ends with the url, starts with the role mention when `pingRoleId` is truthy and
is the bare banner and url otherwise. -/
theorem delivery_sequence (w : World) (st : BotState) (u : JSString) (doc : Document)
    (hwf : Registry.WF st.serverConfigs)
    (hx : Event.extract (some u) (.returned (some doc)) ∈ (checkForUpdates w st).trace) :
    extractions (checkForUpdates w st).trace
      = [Event.extract (some u) (.returned (some doc))] ∧
    (∃ post, (checkForUpdates w st).trace =
        [.detect (.returned (some u)), .setLatest (some u),
          .extract (some u) (.returned (some doc))] ++ post ∧ extractions post = []) ∧
    (∀ g cfg, (g, cfg) ∈ st.serverConfigs → w.fetchChannel g cfg.channelId = true →
      (∀ n, n ≤ (contentParts doc.content).length → w.send g n = true) →
      sentTo g (checkForUpdates w st).trace
        = newNotesHeader cfg (some u) :: contentParts doc.content) ∧
    (∀ cfg : ServerConfig,
      u <:+: newNotesHeader cfg (some u) ∧
      (truthy cfg.pingRoleId = true →
        (lit "<@&" ++ cfg.pingRoleId.getD [] ++ lit ">") <+: newNotesHeader cfg (some u)) ∧
      (truthy cfg.pingRoleId = false →
        newNotesHeader cfg (some u) = lit " **New Star Citizen Patch Notes:**\n" ++ u)) := by
  obtain ⟨_, _, _, hex, h⟩ := delivering_cycle w st u doc hx
  have hurl : doc.url = some u := (getLatestPatchNotesContent_some w st.openai (some u) doc hex).1
  refine ⟨?_, ⟨_, by rw [h], extractions_fanout w doc _⟩, ?_, fun cfg => newNotesHeader_shape cfg u⟩
  · rw [h]
    unfold extractions
    rw [List.filter_append]
    have := extractions_fanout w doc st.serverConfigs
    unfold extractions at this
    rw [this]
    rfl
  · intro g cfg hmem hf hs
    rw [h, sentTo_append, sentTo_fanout w doc g cfg _ hwf hmem]
    unfold deliverTo
    simp only [hf, if_true]
    rw [sendAll_all_ok w g cfg.channelId _ 0
      (fun k _ hk => hs k (by simp only [List.length_cons] at hk; omega)), hurl]
    simp only [sentTo, sentTo_map_send]
    rfl

/-- C7 at three guilds, for the third, whose channel resolves and whose sends resolve. -/
theorem delivery_sequence_witness :
    Registry.WF threeGuildState.serverConfigs ∧
    Event.extract (some (SITE ++ lit "/a")) (.returned (some ⟨some (SITE ++ lit "/a"), lit "NOTES"⟩))
      ∈ (checkForUpdates (roughWorld (lit "/a")) threeGuildState).trace ∧
    sentTo (lit "g3") (checkForUpdates (roughWorld (lit "/a")) threeGuildState).trace
      = newNotesHeader guildThree.2 (some (SITE ++ lit "/a")) :: contentParts (lit "NOTES") :=
  ⟨by unfold Registry.WF; decide, by decide,
    (delivery_sequence (roughWorld (lit "/a")) threeGuildState (SITE ++ lit "/a")
      ⟨some (SITE ++ lit "/a"), lit "NOTES"⟩ (by unfold Registry.WF; decide) (by decide)).2.2.1
      (lit "g3") guildThree.2 (by decide) (by decide)
      (by intro n _; show decide (lit "g3" ≠ lit "g1") = true; decide)⟩


/-! ## Command handlers -/

/-- C8, as stated, fails: with one configured guild and no url observed yet, the `/patchnotes`
handler does call the extraction on the absent url, and the reply it gives is, text for text,
the reply it gives when the extraction of a held url fails on a navigation timeout. -/
theorem patchnotes_extracts_absent_url :
    configuredState.serverConfigs.get (lit "g1") = some guildOne.2 ∧
    configuredState.latestThreadUrl = none ∧
    (patchnotesHandler absentUrlWorld configuredState (lit "g1")).trace
      = [Event.extract none (.returned none), Event.reply COULD_NOT_FETCH] ∧
    holdingState.latestThreadUrl = some (SITE ++ lit "/a") ∧
    (patchnotesHandler timeoutWorld holdingState (lit "g1")).trace
      = [Event.extract (some (SITE ++ lit "/a")) (.returned none),
          Event.reply COULD_NOT_FETCH] := by
  decide

/-- C8, amended. From a configured guild, with no url observed yet, the `/patchnotes` handler
calls the extraction on the absent url; when that call gives nothing it sends nothing, changes
nothing and replies that the notes could not be fetched and to try again later, which is the
reply for every extraction that gives nothing and differs from the reply of an unconfigured
guild. -/
theorem patchnotes_without_latest (w : World) (st : BotState) (g : GuildId)
    (cfg : ServerConfig) (hcfg : st.serverConfigs.get g = some cfg)
    (hnull : st.latestThreadUrl = none)
    (habs : getLatestPatchNotesContent w st.openai none = .returned none) :
    (patchnotesHandler w st g).trace
      = [Event.extract none (.returned none), Event.reply COULD_NOT_FETCH] ∧
    (patchnotesHandler w st g).state = st ∧
    COULD_NOT_FETCH ≠ NOT_CONFIGURED ∧
    (∀ (w' : World) (st' : BotState), st'.serverConfigs.get g = none →
      (patchnotesHandler w' st' g).trace = [Event.reply NOT_CONFIGURED]) ∧
    (∀ (w' : World) (st' : BotState) (cfg' : ServerConfig),
      st'.serverConfigs.get g = some cfg' →
      getLatestPatchNotesContent w' st'.openai st'.latestThreadUrl = .returned none →
      (patchnotesHandler w' st' g).trace
        = [Event.extract st'.latestThreadUrl (.returned none), Event.reply COULD_NOT_FETCH]) := by
  have gen : ∀ (w' : World) (st' : BotState) (cfg' : ServerConfig),
      st'.serverConfigs.get g = some cfg' →
      getLatestPatchNotesContent w' st'.openai st'.latestThreadUrl = .returned none →
      patchnotesHandler w' st' g
        = ⟨st', [Event.extract st'.latestThreadUrl (.returned none),
            Event.reply COULD_NOT_FETCH], .returned ()⟩ := by
    intro w' st' cfg' h1 h2
    simp only [patchnotesHandler, h1, h2]
  rw [← hnull] at habs
  refine ⟨?_, ?_, by decide, ?_, ?_⟩
  · rw [gen w st cfg hcfg habs, hnull]
  · rw [gen w st cfg hcfg habs]
  · intro w' st' h1
    simp only [patchnotesHandler, h1]
  · intro w' st' cfg' h1 h2
    rw [gen w' st' cfg' h1 h2]

/-- C8, amended, at one configured guild, no url held, and a browser that cannot navigate to an
absent url. -/
theorem patchnotes_without_latest_witness :
    configuredState.serverConfigs.get (lit "g1") = some guildOne.2 ∧
    configuredState.latestThreadUrl = none ∧
    getLatestPatchNotesContent absentUrlWorld configuredState.openai none = .returned none ∧
    (patchnotesHandler absentUrlWorld configuredState (lit "g1")).trace
      = [Event.extract none (.returned none), Event.reply COULD_NOT_FETCH] :=
  ⟨by decide, by decide, by decide,
    (patchnotes_without_latest absentUrlWorld configuredState (lit "g1") guildOne.2
      (by decide) (by decide) (by decide)).1⟩

/-- Reading a key after assigning it gives the assigned value. -/
theorem Registry.get_set_self (reg : Registry) (id : GuildId) (cfg : ServerConfig) :
    (reg.set id cfg).get id = some cfg := by
  unfold Registry.set Registry.get
  induction reg with
  | nil => simp [List.lookup]
  | cons e t ih =>
    by_cases he : e.1 = id
    · simp [List.lookup, he]
    · have he' : (e.1 == id) = false := by simp [he]
      have he'' : (id == e.1) = false := by
        simp only [beq_eq_false_iff_ne, ne_eq]
        exact fun h => he h.symm
      by_cases ht : (t.any fun e => e.1 == id) = true
      · simp only [ht, if_true] at ih
        simp only [List.any_cons, he', ht, Bool.false_or, if_true, List.map_cons]
        rw [if_neg (by simp [he])]
        obtain ⟨k, v⟩ := e
        simp only [List.lookup, he'']
        exact ih
      · simp only [ht] at ih
        simp only [List.any_cons, he', ht, Bool.false_or, List.cons_append]
        obtain ⟨k, v⟩ := e
        simp only [List.lookup, he'']
        exact ih

/-- Assigning a key leaves the value read at every other key as it was. -/
theorem Registry.get_set_other (reg : Registry) (id id' : GuildId) (cfg : ServerConfig)
    (hne : id' ≠ id) : (reg.set id cfg).get id' = reg.get id' := by
  have hb : (id' == id) = false := by simpa using hne
  have hmap : ∀ t : Registry,
      List.lookup id' (t.map (fun e => if (e.1 == id) = true then (id, cfg) else e))
        = List.lookup id' t := by
    intro t
    induction t with
    | nil => rfl
    | cons e t ih =>
      obtain ⟨k, v⟩ := e
      have ih' := ih
      simp only [beq_iff_eq] at ih'
      by_cases hk : k = id
      · subst hk
        simp [List.lookup_cons, hb, ih']
      · simp [List.lookup_cons, hk, ih']
  have happ : ∀ t : Registry, List.lookup id' (t ++ [(id, cfg)]) = List.lookup id' t := by
    intro t
    induction t with
    | nil => simp [List.lookup, hb]
    | cons e t ih =>
      obtain ⟨k, v⟩ := e
      rw [List.cons_append, List.lookup_cons, List.lookup_cons, ih]
  unfold Registry.set Registry.get
  split
  · exact hmap reg
  · exact happ reg

/-- Assigning a key keeps the keys distinct. -/
theorem Registry.WF_set (reg : Registry) (id : GuildId) (cfg : ServerConfig)
    (hwf : Registry.WF reg) : Registry.WF (reg.set id cfg) := by
  unfold Registry.set
  split
  · have hkeys : (reg.map (fun e => if (e.1 == id) = true then (id, cfg) else e)).map Prod.fst
        = reg.map Prod.fst := by
      rw [List.map_map]
      apply List.map_congr_left
      intro e _
      by_cases he : e.1 = id
      · simp [he]
      · simp [he]
    unfold Registry.WF
    rw [hkeys]
    exact hwf
  · rename_i hany
    unfold Registry.WF at hwf ⊢
    rw [List.map_append, List.nodup_append]
    refine ⟨hwf, by simp, ?_⟩
    intro k hk hk'
    simp only [List.map_cons, List.map_nil, List.mem_singleton] at hk'
    subst hk'
    apply hany
    rw [List.any_eq_true]
    obtain ⟨e, he, hek⟩ := List.mem_map.mp hk
    exact ⟨e, he, by simpa using hek⟩


/-- C9. The `/setup` handler on a registry (a JavaScript object: no key twice): with a missing
credential (`null` or empty, what `!openAiKey` tests) it replies that a key is required and
leaves the whole state, registry and configuration file included, as it was, without calling
`saveConfig`; with a credential the registry afterwards maps the guild id to the channel id, the
role id (`null` when no role was given) and the key, maps every other id as before, still holds
no key twice, and `saveConfig` is called once on exactly this registry, which is the content of
the file when the write returns. -/
theorem setup_put (w : World) (st : BotState) (o : SetupOptions)
    (hwf : Registry.WF st.serverConfigs) :
    (truthy o.openAiKey = false →
      (setupHandler w st o).state = st ∧
      (setupHandler w st o).trace = [Event.reply KEY_REQUIRED]) ∧
    (∀ key : JSString, o.openAiKey = some key → key ≠ [] →
      (setupHandler w st o).state.serverConfigs.get o.guildId
        = some ⟨o.channel, o.pingRole, key⟩ ∧
      (∀ id : GuildId, id ≠ o.guildId →
        (setupHandler w st o).state.serverConfigs.get id = st.serverConfigs.get id) ∧
      Registry.WF (setupHandler w st o).state.serverConfigs ∧
      (∃ reply, (setupHandler w st o).trace
        = [Event.saveConfig (setupHandler w st o).state.serverConfigs w.writeFile,
            Event.reply reply]) ∧
      (w.writeFile = true →
        (setupHandler w st o).state.configFile
          = some (setupHandler w st o).state.serverConfigs)) := by
  constructor
  · intro h
    simp [setupHandler, h]
  · intro key hkey hne
    have ht : truthy (some key) = true := by
      cases hk : key with
      | nil => exact absurd hk hne
      | cons _ _ => rfl
    have hreg : (setupHandler w st o).state.serverConfigs
        = st.serverConfigs.set o.guildId ⟨o.channel, o.pingRole, key⟩ := by
      cases hw : w.writeFile <;> simp [setupHandler, saveConfig, ht, hw, hkey]
    rw [hreg]
    refine ⟨Registry.get_set_self _ _ _, fun id hid => Registry.get_set_other _ _ _ _ hid,
      Registry.WF_set _ _ _ hwf, ?_, ?_⟩
    · cases hw : w.writeFile
      · exact ⟨SETUP_ERROR, by simp [setupHandler, saveConfig, ht, hw, hkey]⟩
      · exact ⟨setupDone o, by simp [setupHandler, saveConfig, ht, hw, hkey]⟩
    · intro hw
      simp [setupHandler, saveConfig, ht, hw, hkey]

/-- C9 at a registry holding guild `g1` and a `/setup` from guild `g2`. -/
theorem setup_put_witness :
    Registry.WF configuredState.serverConfigs ∧
    (setupHandler (calmWorld (lit "/a")) configuredState setupFromTwo).state.serverConfigs.get
        (lit "g2") = some ⟨lit "c9", none, lit "k2"⟩ ∧
    (setupHandler (calmWorld (lit "/a")) configuredState setupFromTwo).state.serverConfigs.get
        (lit "g1") = configuredState.serverConfigs.get (lit "g1") :=
  ⟨by unfold Registry.WF; decide,
    ((setup_put (calmWorld (lit "/a")) configuredState setupFromTwo
      (by unfold Registry.WF; decide)).2 (lit "k2") rfl (by decide)).1,
    ((setup_put (calmWorld (lit "/a")) configuredState setupFromTwo
      (by unfold Registry.WF; decide)).2 (lit "k2") rfl (by decide)).2.1 (lit "g1") (by decide)⟩

/-! ## Extractor: what holds, and the rejection that escapes -/

/-- The extractor throws exactly when the browser was launched and `browser.close()` is rejected. -/
theorem getLatestPatchNotesContent_threw_iff (w : World) (openai url : Option JSString) :
    getLatestPatchNotesContent w openai url = .threw ↔
      ((w.page url).launch = true ∧ (w.page url).close = false) := by
  unfold getLatestPatchNotesContent
  simp only
  generalize hb : Outcome.catchReturnNull _ = body
  have hbody : body ≠ .threw := by
    rw [← hb]
    intro h
    unfold Outcome.catchReturnNull at h
    split at h <;> cases h
  unfold Outcome.finallyClose
  cases (w.page url).launch <;> cases (w.page url).close <;> simp [hbody]

/-- Whenever `browser.close()` resolves (or the browser was never launched), the extractor
returns, and returns either nothing or a document with the url passed in and the non-empty
trimmed generation output as content; it returns nothing when the content node never appears,
when no content node is in the page, when the text is empty after trimming, when no client is
set, when the generation throws or has no text, and when its text is empty after trimming. -/
theorem getLatestPatchNotesContent_closed (w : World) (openai url : Option JSString)
    (hclose : (w.page url).launch = true → (w.page url).close = true) :
    (getLatestPatchNotesContent w openai url = .returned none ∨
      ∃ doc key nodes text, getLatestPatchNotesContent w openai url = .returned (some doc) ∧
        doc.url = url ∧ doc.content ≠ [] ∧ openai = some key ∧
        (w.page url).content = .returned nodes ∧
        w.generate key (PROMPT_PREFIX ++ trim nodes.flatten) = .returned (some text) ∧
        doc.content = trim text) ∧
    ((w.page url).waitForSelector = false →
      getLatestPatchNotesContent w openai url = .returned none) ∧
    ((w.page url).content = .returned [] →
      getLatestPatchNotesContent w openai url = .returned none) ∧
    (∀ nodes, (w.page url).content = .returned nodes → trim nodes.flatten = [] →
      getLatestPatchNotesContent w openai url = .returned none) ∧
    (openai = none → getLatestPatchNotesContent w openai url = .returned none) ∧
    (∀ key nodes, openai = some key → (w.page url).content = .returned nodes →
      (w.generate key (PROMPT_PREFIX ++ trim nodes.flatten) = .threw ∨
        w.generate key (PROMPT_PREFIX ++ trim nodes.flatten) = .returned none) →
      getLatestPatchNotesContent w openai url = .returned none) ∧
    (∀ key nodes text, openai = some key → (w.page url).content = .returned nodes →
      w.generate key (PROMPT_PREFIX ++ trim nodes.flatten) = .returned (some text) →
      trim text = [] → getLatestPatchNotesContent w openai url = .returned none) := by
  have hnt : getLatestPatchNotesContent w openai url ≠ .threw := by
    intro h
    obtain ⟨h1, h2⟩ := (getLatestPatchNotesContent_threw_iff w openai url).mp h
    rw [hclose h1] at h2
    cases h2
  have absent : ∀ (P : Prop), (∀ doc, getLatestPatchNotesContent w openai url
      = .returned (some doc) → P → False) → P →
      getLatestPatchNotesContent w openai url = .returned none := by
    intro P hP hp
    cases hr : getLatestPatchNotesContent w openai url with
    | threw => exact absurd hr hnt
    | returned v =>
      cases v with
      | none => rfl
      | some doc => exact absurd hp (fun hp' => hP doc hr hp')
  refine ⟨?_, ?_, ?_, ?_, ?_, ?_, ?_⟩
  · cases hr : getLatestPatchNotesContent w openai url with
    | threw => exact absurd hr hnt
    | returned v =>
      cases v with
      | none => left; rfl
      | some doc =>
        right
        obtain ⟨h1, h2, nodes, key, text, h3, _, _, h6, h7, h8⟩ :=
          getLatestPatchNotesContent_some w openai url doc hr
        exact ⟨doc, key, nodes, text, rfl, h1, h2, h6, h3, h7, h8⟩
  · apply absent
    intro doc hr hp
    unfold getLatestPatchNotesContent at hr
    have hr' := finallyClose_returned _ _ _ _ hr
    simp only [hp] at hr'
    revert hr'
    cases (w.page url).launch <;> cases (w.page url).newPage <;> cases (w.page url).goto <;>
      simp [Outcome.catchReturnNull]
  · apply absent
    intro doc hr hp
    obtain ⟨_, _, nodes, _, _, h3, h4, _⟩ := getLatestPatchNotesContent_some w openai url doc hr
    rw [hp] at h3
    injection h3 with h3
    exact h4 h3.symm
  · intro nodes hc
    apply absent
    intro doc hr hp
    obtain ⟨_, _, nodes', _, _, h3, _, h5, _⟩ := getLatestPatchNotesContent_some w openai url doc hr
    rw [hc] at h3
    injection h3 with h3
    subst h3
    exact h5 hp
  · apply absent
    intro doc hr hp
    obtain ⟨_, _, _, key, _, _, _, _, h6, _⟩ := getLatestPatchNotesContent_some w openai url doc hr
    rw [hp] at h6
    cases h6
  · intro key nodes hk hc
    apply absent
    intro doc hr hp
    obtain ⟨_, _, nodes', key', text, h3, _, _, h6, h7, _⟩ :=
      getLatestPatchNotesContent_some w openai url doc hr
    rw [hc] at h3
    injection h3 with h3
    subst h3
    rw [hk] at h6
    injection h6 with h6
    subst h6
    rw [h7] at hp
    rcases hp with hp | hp
    · cases hp
    · injection hp with hp; cases hp
  · intro key nodes text hk hc hg
    apply absent
    intro doc hr hp
    obtain ⟨_, h2, nodes', key', text', h3, _, _, h6, h7, h8⟩ :=
      getLatestPatchNotesContent_some w openai url doc hr
    rw [hc] at h3
    injection h3 with h3
    subst h3
    rw [hk] at h6
    injection h6 with h6
    subst h6
    rw [hg] at h7
    injection h7 with h7
    injection h7 with h7
    subst h7
    rw [h8] at h2
    exact h2 hp

/-- C10, the failing input: every step of the scrape and the generation succeed and only
`browser.close()` in the `finally` block is rejected; the extractor then ends in that rejection
instead of returning the document it had built (the one it returns when the close resolves), and
the polling cycle that called it ends in the rejection too. -/
theorem close_rejection_escapes :
    getLatestPatchNotesContent closeFailsWorld (some (lit "k")) (some (SITE ++ lit "/a"))
      = .threw ∧
    getLatestPatchNotesContent (calmWorld (lit "/a")) (some (lit "k")) (some (SITE ++ lit "/a"))
      = .returned (some ⟨some (SITE ++ lit "/a"), lit "NOTES"⟩) ∧
    (checkForUpdates closeFailsWorld configuredState).result = .threw := by
  decide

end PatchNotesBot
